import Mathlib

/-!
Verification development for the secrets-scanner engine
(`src/legacy/secrets_scanner.py` = variant 1, `src/legacy/secrets_scanner2.py`
= variant 2).  The Python code is embedded shallowly: pure data and decision
logic become executable Lean definitions; calls into the `re` module are
modelled by a small executable regex interpreter over the exact subset of
syntax the scanner uses; fallible regex compilation is modelled with
`Option`/`Except`.  All string handling is over the ASCII fragment actually
exercised by the scanner (Python `str.lower`/`\s`/`\w` agree with the model
there).
-/

namespace Scanner

/-- Severity levels, `secrets_scanner.py` lines 41-45 / `secrets_scanner2.py`
lines 47-51.  Total order HIGH > MEDIUM > LOW. -/
inductive Severity
  | HIGH
  | MEDIUM
  | LOW
deriving DecidableEq, Repr

/-- Numeric rank of a severity, HIGH highest; used to state the ordering
facts (the Python code compares severities only by equality tests). -/
def Severity.rank : Severity → Nat
  | .HIGH => 2
  | .MEDIUM => 1
  | .LOW => 0

/-- Risk types, `secrets_scanner.py` lines 48-53 / `secrets_scanner2.py`
lines 54-59. -/
inductive RiskType
  | HARDCODED_SECRET
  | DATA_EXPOSURE_LOGS
  | DATA_EXPOSURE_RESPONSE
  | SENSITIVE_CONFIG
deriving DecidableEq, Repr

/-- A Finding, `secrets_scanner2.py` lines 62-106.  The variant-1 `Finding`
(`secrets_scanner.py` lines 56-74) has the same fields minus `description`
and `isStillTracked`; variant-1 code never reads those two fields, so one
structure serves both embeddings (the defaults mirror the Python keyword
defaults). -/
structure Finding where
  filePath : String
  lineNumber : Nat
  lineContent : String
  pattern : String
  severity : Severity := .LOW
  riskType : RiskType := .HARDCODED_SECRET
  description : String := ""
  isGitignored : Bool := false
  inGitHistory : Bool := false
  isStillTracked : Bool := false
deriving DecidableEq, Repr

/-- Python `str.lower` (ASCII; the scanner's inputs are ASCII). -/
def pyLower (s : String) : String :=
  ⟨s.data.map Char.toLower⟩

/-- The ASCII whitespace characters of Python `str.strip` and `\s`. -/
def pyWs (c : Char) : Bool :=
  c == ' ' || c == '\t' || c == '\n' || c == '\x0b' || c == '\x0c' || c == '\x0d'

/-- Python `str.strip` (ASCII whitespace). -/
def pyStrip (s : String) : String :=
  ⟨((s.data.dropWhile pyWs).reverse.dropWhile pyWs).reverse⟩

/-- Python `c in s` for a single character. -/
def strContainsChar (s : String) (c : Char) : Bool :=
  s.data.contains c

/-- Python `s.startswith(pre)`. -/
def pyStartsWith (s pre : String) : Bool :=
  pre.data.isPrefixOf s.data

/-- Left-to-right non-overlapping replacement over character lists; the
fuel is the length of the remaining text, and each step consumes at least
one character, so the fuel never runs out on the inputs used (the needles
below are never empty). -/
def pyReplaceGo (needle repl : List Char) : Nat → List Char → List Char
  | _, [] => []
  | 0, s => s
  | fuel + 1, c :: t =>
      if needle.isPrefixOf (c :: t) then
        repl ++ pyReplaceGo needle repl fuel (t.drop (needle.length - 1))
      else
        c :: pyReplaceGo needle repl fuel t

/-- Python `s.replace(needle, repl)` for a non-empty needle. -/
def pyReplace (s needle repl : String) : String :=
  ⟨pyReplaceGo needle.data repl.data s.data.length s.data⟩

/-- Python `f"{file_path}:{line_number}"` (`secrets_scanner2.py` line 105). -/
def Finding.fingerprint (f : Finding) : String :=
  f.filePath ++ ":" ++ Nat.repr f.lineNumber

/-- Python `f"{file_path}:{line_number}:{pattern}"` (`secrets_scanner2.py`
line 106). -/
def Finding.fullFingerprint (f : Finding) : String :=
  f.filePath ++ ":" ++ Nat.repr f.lineNumber ++ ":" ++ f.pattern

/-!
Mini regex interpreter.  The scanner's patterns use only: literal
characters, `.`, character classes (with ranges and negation), the
quantifiers `*`, `+`, `?`, `{n}`, `{n,}`, the class escapes `\s`, `\w`,
and top-level alternation of plain words.  A pattern is modelled as a list
of pieces (atom + quantifier); top-level alternation `A|B` is modelled by
a Boolean disjunction of the searches for `A` and `B`, which has the same
Boolean `re.search`/`re.match` semantics.  Matching is angelic
(a match is found iff one exists), which coincides with Python's
backtracking engine for plain Boolean search.
-/

/-- One entry of a character class: a single character or a range. -/
inductive CItem
  | single (c : Char)
  | crange (lo hi : Char)
deriving DecidableEq, Repr

/-- A regex atom matching exactly one character. -/
inductive RAtom
  | lit (c : Char)
  | any
  | cls (neg : Bool) (items : List CItem)
deriving DecidableEq, Repr

/-- Quantifier on an atom: exactly once, at least `n` times (so `*` is
`atLeast 0` and `+` is `atLeast 1` and `{n,}` is `atLeast n`), or `?`. -/
inductive Quant
  | one
  | atLeast (n : Nat)
  | opt
deriving DecidableEq, Repr

/-- A quantified atom. -/
abbrev Piece := RAtom × Quant

/-- Does a class item cover the character (case-sensitively)? -/
def citemMatch : CItem → Char → Bool
  | .single a, c => a == c
  | .crange lo hi, c => lo ≤ c && c ≤ hi

/-- Case-sensitive atom match (Python compiled pattern without flags). -/
def amatchCS : RAtom → Char → Bool
  | .lit a, c => a == c
  | .any, _ => true
  | .cls neg items, c => neg != items.any (citemMatch · c)

/-- Case-insensitive atom match (`re.IGNORECASE`): the input character is
accepted if it, its lower-case or its upper-case form is covered (Python's
ASCII simple case folding). -/
def amatchCI : RAtom → Char → Bool
  | .lit a, c => a.toLower == c.toLower
  | .any, _ => true
  | .cls neg items, c =>
      neg != items.any (fun it =>
        citemMatch it c || citemMatch it c.toLower || citemMatch it c.toUpper)

/-- Atom match with a case-insensitivity switch. -/
def amatch (ci : Bool) (a : RAtom) (c : Char) : Bool :=
  if ci then amatchCI a c else amatchCS a c

/-- Fuel-driven core of prefix matching.  Every recursive call strictly
decreases `ps.length + s.length`, so any fuel above that sum is adequate;
the fuel only makes the recursion structural, it never changes the result
on adequate fuel (`matchSeqGo_fuel` below). -/
def matchSeqGo (ci : Bool) : Nat → List Piece → List Char → Bool
  | 0, _, _ => false
  | _ + 1, [], _ => true
  | _ + 1, (_, .one) :: _, [] => false
  | f + 1, (a, .one) :: ps, c :: s => amatch ci a c && matchSeqGo ci f ps s
  | f + 1, (a, .opt) :: ps, s =>
      matchSeqGo ci f ps s ||
        (match s with
          | [] => false
          | c :: s2 => amatch ci a c && matchSeqGo ci f ps s2)
  | f + 1, (a, .atLeast 0) :: ps, s =>
      matchSeqGo ci f ps s ||
        (match s with
          | [] => false
          | c :: s2 => amatch ci a c && matchSeqGo ci f ((a, .atLeast 0) :: ps) s2)
  | _ + 1, (_, .atLeast (_ + 1)) :: _, [] => false
  | f + 1, (a, .atLeast (n + 1)) :: ps, c :: s =>
      amatch ci a c && matchSeqGo ci f ((a, .atLeast n) :: ps) s

/-- Does the piece list match some prefix of the character list?  This is
the semantics of Python `re.match` (anchored at the start, free at the
end). -/
def matchSeq (ci : Bool) (ps : List Piece) (s : List Char) : Bool :=
  matchSeqGo ci (ps.length + s.length + 1) ps s

/-- Does the piece list match starting at some position?  This is the
semantics of Python `re.search`. -/
def rsearch (ci : Bool) (ps : List Piece) : List Char → Bool
  | [] => matchSeq ci ps []
  | c :: s => matchSeq ci ps (c :: s) || rsearch ci ps s

/-- Fuel-driven core of whole-string matching (same fuel discipline as
`matchSeqGo`). -/
def matchWholeGo (ci : Bool) : Nat → List Piece → List Char → Bool
  | 0, _, _ => false
  | _ + 1, [], [] => true
  | _ + 1, [], _ :: _ => false
  | _ + 1, (_, .one) :: _, [] => false
  | f + 1, (a, .one) :: ps, c :: s => amatch ci a c && matchWholeGo ci f ps s
  | f + 1, (a, .opt) :: ps, s =>
      matchWholeGo ci f ps s ||
        (match s with
          | [] => false
          | c :: s2 => amatch ci a c && matchWholeGo ci f ps s2)
  | f + 1, (a, .atLeast 0) :: ps, s =>
      matchWholeGo ci f ps s ||
        (match s with
          | [] => false
          | c :: s2 => amatch ci a c && matchWholeGo ci f ((a, .atLeast 0) :: ps) s2)
  | _ + 1, (_, .atLeast (_ + 1)) :: _, [] => false
  | f + 1, (a, .atLeast (n + 1)) :: ps, c :: s =>
      amatch ci a c && matchWholeGo ci f ((a, .atLeast n) :: ps) s

/-- Does the piece list match the whole character list?  This is the
semantics of `fnmatch` (anchored at both ends). -/
def matchWhole (ci : Bool) (ps : List Piece) (s : List Char) : Bool :=
  matchWholeGo ci (ps.length + s.length + 1) ps s

/-- Helper: the pieces of a plain literal string. -/
def litPieces (s : String) : List Piece :=
  s.data.map (fun c => (RAtom.lit c, Quant.one))

/-- Helper: the piece `\s*` (Python ASCII whitespace class). -/
def wsCls : RAtom :=
  .cls false [.single ' ', .single '\t', .single '\n', .single '\x0b',
    .single '\x0c', .single '\x0d']

/-- Helper: the class `\w` (ASCII word characters). -/
def wordCls : RAtom :=
  .cls false [.crange 'a' 'z', .crange 'A' 'Z', .crange '0' '9', .single '_']

/-!
A model of `re.compile` for the regex strings that the allowlist code
builds (`acceptable.replace('*', '.*')`, then `re.match`).  The parser
covers literal characters, `.`, `[...]` classes (with `^` negation and
ranges; an unterminated `[` is a compile error exactly as in Python), and
a postfix `*`.  Any other regex metacharacter makes the parser report a
compile error; allowlist entries using grouping or alternation
metacharacters are outside the modelled subset and never appear in the
statements below.  The `fuel` argument only bounds the recursion; every
step consumes at least one character, so `length + 1` fuel is always
sufficient.
-/

/-- Decidable equality for `Except`, used to evaluate the allowlist
matcher's result on concrete inputs. -/
instance instDecEqExcept {ε α : Type} [DecidableEq ε] [DecidableEq α] :
    DecidableEq (Except ε α)
  | .error e, .error f =>
      if h : e = f then .isTrue (by rw [h])
      else .isFalse (fun hh => h (by cases hh; rfl))
  | .error _, .ok _ => .isFalse (fun hh => Except.noConfusion hh)
  | .ok _, .error _ => .isFalse (fun hh => Except.noConfusion hh)
  | .ok a, .ok b =>
      if h : a = b then .isTrue (by rw [h])
      else .isFalse (fun hh => h (by cases hh; rfl))

/-- Parse the body of a character class up to the closing `]`; `none`
means the class is unterminated (Python `re.error`). -/
def classItems : List Char → Option (List CItem × List Char)
  | [] => none
  | ']' :: rest => some ([], rest)
  | a :: '-' :: b :: rest =>
      if b = ']' then some ([.single a, .single '-'], rest)
      else (classItems rest).map (fun p => (.crange a b :: p.1, p.2))
  | a :: rest => (classItems rest).map (fun p => (.single a :: p.1, p.2))

/-- Metacharacters outside the modelled regex subset (their appearance as
a bare atom is reported as a compile failure). -/
def metaChars : List Char := ['(', ')', '+', '?', '\x7b', '\x7d', '|', '^', '$', '\\', '*']

/-- Attach a postfix `*` quantifier if present. -/
def withQuant (a : RAtom) (rest : List Char) : Piece × List Char :=
  match rest with
  | '*' :: r => ((a, .atLeast 0), r)
  | _ => ((a, .one), rest)

/-- Fuel-driven core of the regex parser. -/
def reParseGo : Nat → List Char → Except Unit (List Piece)
  | 0, _ => .error ()
  | _, [] => .ok []
  | fuel + 1, c :: rest =>
      if c = '.' then
        let (p, r) := withQuant .any rest
        (reParseGo fuel r).map (p :: ·)
      else if c = '[' then
        match rest with
        | '^' :: rest2 =>
            match classItems rest2 with
            | none => .error ()
            | some (items, r0) =>
                let (p, r) := withQuant (.cls true items) r0
                (reParseGo fuel r).map (p :: ·)
        | _ =>
            match classItems rest with
            | none => .error ()
            | some (items, r0) =>
                let (p, r) := withQuant (.cls false items) r0
                (reParseGo fuel r).map (p :: ·)
      else if c ∈ metaChars then .error ()
      else
        let (p, r) := withQuant (.lit c) rest
        (reParseGo fuel r).map (p :: ·)

/-- Model of `re.compile` on the allowlist regex strings. -/
def reParse (s : String) : Except Unit (List Piece) :=
  reParseGo (s.data.length + 1) s.data

/-- Python `acceptable.replace('*', '.*')`
(`secrets_scanner.py` line 513, `secrets_scanner2.py` line 761): for the
single-character needle `*`, Python's left-to-right non-overlapping
replacement is exactly the per-character expansion below. -/
def globRegex (entry : String) : String :=
  ⟨entry.data.foldr (fun c acc => if c = '*' then '.' :: '*' :: acc else c :: acc) []⟩

/-- Loop of `AllowlistManager.is_allowlisted` over glob entries
(`secrets_scanner2.py` lines 757-764): a parse failure is Python's
uncaught `re.error`, modelled as `Except.error`. -/
def isAllowlistedGo (f : Finding) : List String → Except Unit Bool
  | [] => .ok false
  | e :: es =>
      if e.data.contains '*' then
        match reParse (globRegex e) with
        | .error _ => .error ()
        | .ok ps =>
            if matchSeq false ps f.fingerprint.data ||
                matchSeq false ps f.fullFingerprint.data then .ok true
            else isAllowlistedGo f es
      else isAllowlistedGo f es

/-- Variant 2 `AllowlistManager.is_allowlisted` (`secrets_scanner2.py`
lines 739-765): exact bare fingerprint, exact full fingerprint, then glob
entries against both fingerprint forms.  The allowlist is its list of
stored keys (the attached metadata is never read by the matcher). -/
def isAllowlisted (allowlist : List String) (f : Finding) : Except Unit Bool :=
  if f.fingerprint ∈ allowlist then .ok true
  else if f.fullFingerprint ∈ allowlist then .ok true
  else isAllowlistedGo f allowlist

/-- Loop of variant 1 `SecretsScanner._is_acceptable_finding`
(`secrets_scanner.py` lines 501-519): per stored entry, exact match of the
full fingerprint, then (for entries containing `*`) a glob match against
the full fingerprint only. -/
def isAcceptableGo (f : Finding) : List String → Except Unit Bool
  | [] => .ok false
  | e :: es =>
      if f.fullFingerprint = e then .ok true
      else if e.data.contains '*' then
        match reParse (globRegex e) with
        | .error _ => .error ()
        | .ok ps =>
            if matchSeq false ps f.fullFingerprint.data then .ok true
            else isAcceptableGo f es
      else isAcceptableGo f es

/-- Variant 1 `SecretsScanner._is_acceptable_finding`. -/
def isAcceptableFinding (acceptable : List String) (f : Finding) : Except Unit Bool :=
  isAcceptableGo f acceptable

/-!
Path helpers: `os.path.basename`, the extension part of
`os.path.splitext` (including its treatment of leading dots), and
`fnmatch.fnmatch` for the config-filename globs (whole-string match; `*`
matches anything, `?` one character, `.` is literal; POSIX `normcase` is
the identity so matching is case-sensitive).
-/

/-- Python `os.path.basename` (POSIX). -/
def basenameStr (p : String) : String :=
  ⟨(p.data.reverse.takeWhile (fun c => c != '/')).reverse⟩

/-- The extension (with its dot) per CPython `os.path.splitext`: the part
of the basename from its last `.`, provided some character before that
dot is not itself a dot (so `.env` has extension `""`). -/
def splitextExt (p : String) : String :=
  let b := (basenameStr p).data
  match (b.reverse).findIdx? (· = '.') with
  | none => ""
  | some k =>
      let dotPos := b.length - 1 - k
      if (b.take dotPos).any (· ≠ '.') then ⟨b.drop dotPos⟩ else ""

/-- Lower-cased extension, as used by `os.path.splitext(...)[1].lower()`. -/
def fileExtLower (p : String) : String :=
  pyLower (splitextExt p)

/-- Translate an `fnmatch`-style glob (over the subset `*`, `?`,
literals — the scanner's config globs use nothing else) to pieces. -/
def fnmatchPieces (glob : String) : List Piece :=
  glob.data.map (fun c =>
    if c = '*' then (RAtom.any, Quant.atLeast 0)
    else if c = '?' then (RAtom.any, Quant.one)
    else (RAtom.lit c, Quant.one))

/-- Python `fnmatch.fnmatch(name, glob)` on POSIX. -/
def fnmatchStr (name glob : String) : Bool :=
  matchWhole false (fnmatchPieces glob) name.data

/-- The config-file extension list shared by both variants
(`secrets_scanner.py` line 544, `secrets_scanner2.py` line 670). -/
def configExts : List String :=
  [".ini", ".conf", ".env", ".cfg", ".yaml", ".yml", ".properties", ".tfvars"]

/-- Variant 1 inline config-file test (`secrets_scanner.py` lines
539-546): extension in the list, or basename `.env`, or basename starting
with `.env.`. -/
def isConfigFileV1 (path : String) : Bool :=
  fileExtLower path ∈ configExts ||
    basenameStr path == ".env" || pyStartsWith (basenameStr path) ".env."

/-- The default `config_files` glob list (`secrets_scanner2.py` lines
388-391, identically `secrets_scanner.py` lines 196-199). -/
def configFilesDefault : List String :=
  [".env", "*.env", "*.env.*", "*.ini", "*.conf", "*.cfg",
   "*.properties", "*.tfvars", "*.yaml", "*.yml", "config.*"]

/-- Variant 2 `PatternManager.is_config_file` (`secrets_scanner2.py`
lines 657-671): extension in the list, or basename matching one of the
`config_files` globs. -/
def isConfigFilePM (configFiles : List String) (path : String) : Bool :=
  fileExtLower path ∈ configExts ||
    configFiles.any (fun g => fnmatchStr (basenameStr path) g)

/-!
Classifier.  A compiled pattern is modelled as its Boolean search function
paired with the original raw pattern string (mirroring the Python tuples
`(re.compile(p, re.IGNORECASE), p)`).
-/

/-- A compiled pattern: search predicate plus the raw pattern string. -/
abbrev Matcher := (String → Bool) × String

/-- Does `needle` occur as a contiguous sublist of the second list? -/
def listContains (needle : List Char) : List Char → Bool
  | [] => needle.isEmpty
  | c :: t => needle.isPrefixOf (c :: t) || listContains needle t

/-- Python substring test `needle in haystack`. -/
def containsSub (needle haystack : String) : Bool :=
  listContains needle.data haystack.data

/-- Variant 1 risk-type pre-pass (`secrets_scanner.py` lines 523-532):
the logging lexicon is `console.`, `print`, `echo` (no `log.`). -/
def riskTypeV1 (lineContent : String) : RiskType :=
  if ["console.", "print", "echo"].any (fun t => containsSub t (pyLower lineContent)) then
    .DATA_EXPOSURE_LOGS
  else if ["return", "res.", "response"].any (fun t => containsSub t (pyLower lineContent)) then
    .DATA_EXPOSURE_RESPONSE
  else if containsSub "[" lineContent && containsSub "]" lineContent then
    .SENSITIVE_CONFIG
  else
    .HARDCODED_SECRET

/-- Variant 2 `SecretsScanner._determine_risk_type` (`secrets_scanner2.py`
lines 1099-1116): the logging lexicon additionally contains `log.`. -/
def riskTypeV2 (line : String) : RiskType :=
  if ["console.", "print", "echo", "log."].any (fun t => containsSub t (pyLower line)) then
    .DATA_EXPOSURE_LOGS
  else if ["return", "res.", "response"].any (fun t => containsSub t (pyLower line)) then
    .DATA_EXPOSURE_RESPONSE
  else if containsSub "[" line && containsSub "]" line then
    .SENSITIVE_CONFIG
  else
    .HARDCODED_SECRET

/-- Spec-side risk-type decision, written from the specification's words
(spec 4.2 rule 1): logging lexicon `console.`/`print`/`echo`/`log.` then
response lexicon `return`/`res.`/`response` then bracketed section header
then `HARDCODED_SECRET`. -/
def riskTypeSpec (line : String) : RiskType :=
  if containsSub "console." (pyLower line) || containsSub "print" (pyLower line) ||
      containsSub "echo" (pyLower line) || containsSub "log." (pyLower line) then
    .DATA_EXPOSURE_LOGS
  else if containsSub "return" (pyLower line) || containsSub "res." (pyLower line) ||
      containsSub "response" (pyLower line) then
    .DATA_EXPOSURE_RESPONSE
  else if containsSub "[" line && containsSub "]" line then
    .SENSITIVE_CONFIG
  else
    .HARDCODED_SECRET

/-- The sensitive-term lexicon for config files (`secrets_scanner.py`
lines 550-551, identically `secrets_scanner2.py` lines 1143-1144). -/
def sensitiveTerms : List String :=
  ["client_id", "client_secret", "api_key", "password", "token", "access_key",
   "DATABASE_URL", "POSTGRES_PASSWORD", "secret", "key", "auth", "credential"]

/-- The class `[0-9a-zA-Z._=/ -]` (without the space; dot, underscore,
equals, slash, dash written spaced here to keep the comment well formed)
from the medium-severity value shape. -/
def valueCls : RAtom :=
  .cls false [.crange '0' '9', .crange 'a' 'z', .crange 'A' 'Z',
    .single '.', .single '_', .single '=', .single '/', .single '-']

/-- The class `["\']` (a double or single quote). -/
def quoteCls : RAtom :=
  .cls false [.single '"', .single '\x27']

/-- Model of the `re.search` for the generic key/value shape: an `=` or
`:`, optional whitespace, a quote, 16 or more characters of `valueCls`,
and a quote (`secrets_scanner.py` line 561 / `secrets_scanner2.py` line
1154; compiled without flags, hence case-sensitive). -/
def mediumValueSearch (line : String) : Bool :=
  rsearch false
    [(.cls false [.single '=', .single ':'], .one), (wsCls, .atLeast 0),
     (quoteCls, .one), (valueCls, .atLeast 16), (quoteCls, .one)]
    line.data

/-- Model of `re.search(r'(password|pass|pwd)\s*=', line.lower())`
(`secrets_scanner.py` line 569 / `secrets_scanner2.py` line 1162); the
top-level alternation is expanded into a disjunction of searches, Boolean
equivalent. -/
def passAssignSearch (lowerLine : String) : Bool :=
  ["password", "pass", "pwd"].any (fun w =>
    rsearch false (litPieces w ++ [(wsCls, .atLeast 0), (.lit '=', .one)]) lowerLine.data)

/-- The special-character list of the password rule (`secrets_scanner.py`
line 569 / `secrets_scanner2.py` line 1162). -/
def specialChars : List Char := ['!', '@', '#', '$', '%', '^', '&', '*']

/-- The database-engine and password lexicons (`secrets_scanner.py`
line 565 / `secrets_scanner2.py` line 1158). -/
def dbTerms : List String := ["postgres", "sql", "mysql", "mongo"]

/-- Password-word lexicon of the database rule. -/
def dbPassTerms : List String := ["password", "pass", "pwd"]

/-- Shared tail of both classifiers, after the risk type and the
config-file flag have been determined; `logTokens` is the logging lexicon
of the respective variant's logging rule. -/
def severityTail (logTokens : List String) (isConfig : Bool)
    (lineContent : String) (riskType : RiskType) : Severity × RiskType :=
  let low := pyLower lineContent
  if isConfig &&
      sensitiveTerms.any (fun t =>
        containsSub (pyLower t) low && containsSub "=" lineContent) then
    (.HIGH, riskType)
  else if logTokens.any (fun t => containsSub t low) &&
      ["pass", "secret", "token", "api", "cred"].any (fun t => containsSub t low) then
    (.HIGH, riskType)
  else if mediumValueSearch lineContent then
    (.MEDIUM, riskType)
  else if dbTerms.any (fun t => containsSub t low) &&
      dbPassTerms.any (fun t => containsSub t low) then
    (.HIGH, riskType)
  else if passAssignSearch low && specialChars.any (fun c => strContainsChar lineContent c) then
    (.HIGH, riskType)
  else if containsSub "client_id" low || containsSub "client_secret" low then
    (.HIGH, riskType)
  else
    (.LOW, riskType)

/-- Variant 1 `SecretsScanner._determine_severity_and_risk`
(`secrets_scanner.py` lines 521-577).  `matchingPattern` is accepted but,
as in the source, never consulted: the override rule re-scans the line
against every compiled override pattern. -/
def determineSeverityAndRiskV1 (compiledOverrides : List Matcher)
    (filePath lineContent matchingPattern : String) : Severity × RiskType :=
  let riskType := riskTypeV1 lineContent
  if compiledOverrides.any (fun m => m.1 lineContent) then
    (.HIGH, riskType)
  else
    severityTail ["console.", "print", "echo"] (isConfigFileV1 filePath)
      lineContent riskType

/-- Variant 2 `SecretsScanner._determine_severity_and_risk`
(`secrets_scanner2.py` lines 1118-1170); differs from variant 1 in the
risk pre-pass and logging rule (extra `log.`) and in delegating the
config-file test to the `PatternManager`. -/
def determineSeverityAndRiskV2 (compiledOverrides : List Matcher)
    (configFiles : List String)
    (filePath lineContent matchingPattern : String) : Severity × RiskType :=
  let riskType := riskTypeV2 lineContent
  if compiledOverrides.any (fun m => m.1 lineContent) then
    (.HIGH, riskType)
  else
    severityTail ["console.", "print", "echo", "log."]
      (isConfigFilePM configFiles filePath) lineContent riskType

/-!
Scan engines.  The allowlist gate inside a scan is modelled as a Boolean
predicate (the behaviour of `is_allowlisted` on allowlists whose glob
entries compile — on such allowlists the Python call returns a plain
Boolean); file traversal, git subprocess calls and file reading are
external collaborators and appear as Boolean parameters.  Line numbering
is 1-based as with Python `enumerate(f, 1)`.
-/

/-- Variant 2 scan configuration: the `PatternManager` state plus the
allowlist gate and the high-only flag. -/
structure ScanCtxV2 where
  compiledOverrides : List Matcher
  compiledPatterns : List Matcher
  compiledConfigPatterns : List Matcher
  compiledExclusions : List (String → Bool)
  configFiles : List String
  allowGate : Finding → Bool
  highOnly : Bool

/-- Variant 2 `PatternManager.should_exclude_line` (`secrets_scanner2.py`
lines 673-686). -/
def shouldExcludeLineV2 (ctx : ScanCtxV2) (line : String) : Bool :=
  ctx.compiledExclusions.any (fun e => e line)

/-- Build the `Finding` that `scan_file` constructs for one match. -/
def mkFoundV2 (path : String) (i : Nat) (line pat : String)
    (sev : Severity) (rt : RiskType) (desc : String) : Finding :=
  { filePath := path, lineNumber := i, lineContent := pyStrip line,
    pattern := pat, severity := sev, riskType := rt, description := desc }

/-- The allowlist and high-only gates applied to a candidate finding,
identical in both variants (`secrets_scanner.py` lines 799-807,
`secrets_scanner2.py` lines 1294-1302): drop if allowlisted, drop if
`high_only` and the candidate is not HIGH, otherwise keep.  (The
config-pattern branch of `scan_file` tests the local `severity` variable,
which is the literal HIGH it just assigned to the finding, so the test
coincides with testing the finding's severity.) -/
def scanGate (allowGate : Finding → Bool) (highOnly : Bool) (fd : Finding) :
    Option Finding :=
  if allowGate fd then none
  else if highOnly && !(fd.severity == .HIGH) then none
  else some fd

/-- One line of variant 2 `SecretsScanner.scan_file` (`secrets_scanner2.py`
lines 1271-1365): exclusion veto, then override patterns, then primary
patterns, then — only for config files — config-specific patterns; each
firing matcher yields a candidate gated by the allowlist and the
high-only flag. -/
def scanFileLineV2 (ctx : ScanCtxV2) (path : String) (i : Nat) (line : String) :
    List Finding :=
  if shouldExcludeLineV2 ctx line then [] else
    (ctx.compiledOverrides.filterMap (fun m =>
      if m.1 line then
        scanGate ctx.allowGate ctx.highOnly
          (mkFoundV2 path i line m.2
            (determineSeverityAndRiskV2 ctx.compiledOverrides ctx.configFiles path line m.2).1
            (determineSeverityAndRiskV2 ctx.compiledOverrides ctx.configFiles path line m.2).2
            ("Override pattern: " ++ m.2))
      else none)) ++
    (ctx.compiledPatterns.filterMap (fun m =>
      if m.1 line then
        scanGate ctx.allowGate ctx.highOnly
          (mkFoundV2 path i line m.2
            (determineSeverityAndRiskV2 ctx.compiledOverrides ctx.configFiles path line m.2).1
            (determineSeverityAndRiskV2 ctx.compiledOverrides ctx.configFiles path line m.2).2
            "")
      else none)) ++
    (if isConfigFilePM ctx.configFiles path then
      ctx.compiledConfigPatterns.filterMap (fun m =>
        if m.1 line then
          scanGate ctx.allowGate ctx.highOnly
            (mkFoundV2 path i line m.2 .HIGH .SENSITIVE_CONFIG "Sensitive config pattern")
        else none)
    else [])

/-- Iterate `scanFileLineV2` over the lines, numbering from `i`. -/
def scanLinesV2 (ctx : ScanCtxV2) (path : String) : Nat → List String → List Finding
  | _, [] => []
  | i, line :: rest => scanFileLineV2 ctx path i line ++ scanLinesV2 ctx path (i + 1) rest

/-- Variant 2 `SecretsScanner.scan_file` on the given content lines. -/
def scanFileV2 (ctx : ScanCtxV2) (path : String) (lines : List String) : List Finding :=
  scanLinesV2 ctx path 1 lines

/-- Variant 1 scan configuration (`secrets_scanner.py`). -/
structure ScanCtxV1 where
  compiledPatterns : List Matcher
  compiledOverrides : List Matcher
  compiledConfigPatterns : List Matcher
  compiledExclusions : List (String → Bool)
  allowGate : Finding → Bool
  highOnly : Bool

/-- Variant 1 `SecretsScanner._should_exclude` (`secrets_scanner.py`
lines 592-597). -/
def shouldExcludeV1 (ctx : ScanCtxV1) (line : String) : Bool :=
  ctx.compiledExclusions.any (fun e => e line)

/-- The severity escalation applied at finding creation in variant 1
`SecretsScanner.scan` (`secrets_scanner.py` lines 793-795). -/
def escalateSeverityV1 (isHistorical isStillTracked : Bool) (sev : Severity) : Severity :=
  if isHistorical && isStillTracked && !(sev == .HIGH) then .HIGH else sev

/-- One line of variant 1 `SecretsScanner.scan` (`secrets_scanner.py`
lines 758-809): exclusion veto, then `all_patterns = compiled_patterns +
compiled_overrides + compiled_config_patterns` applied unconditionally
(config patterns are not gated on the file being a config file), then the
historical-and-tracked escalation, the allowlist gate and the high-only
gate.  `isHistorical`/`isStillTracked`/`gitignoredExt` stand for the
externally determined git facts about `path`. -/
def scanFileLineV1 (ctx : ScanCtxV1) (path : String)
    (isHistorical isStillTracked gitignoredExt : Bool) (i : Nat) (line : String) :
    List Finding :=
  if shouldExcludeV1 ctx line then [] else
    (ctx.compiledPatterns ++ ctx.compiledOverrides ++ ctx.compiledConfigPatterns).filterMap
      (fun m =>
        if m.1 line then
          scanGate ctx.allowGate ctx.highOnly
            { filePath := path, lineNumber := i, lineContent := pyStrip line,
              pattern := m.2,
              severity := escalateSeverityV1 isHistorical isStillTracked
                (determineSeverityAndRiskV1 ctx.compiledOverrides path line m.2).1,
              riskType := (determineSeverityAndRiskV1 ctx.compiledOverrides path line m.2).2,
              isGitignored := isHistorical || gitignoredExt,
              inGitHistory := isHistorical }
        else none)

/-- Iterate `scanFileLineV1` over the lines, numbering from `i`. -/
def scanLinesV1 (ctx : ScanCtxV1) (path : String)
    (isHistorical isStillTracked gitignoredExt : Bool) :
    Nat → List String → List Finding
  | _, [] => []
  | i, line :: rest =>
      scanFileLineV1 ctx path isHistorical isStillTracked gitignoredExt i line ++
        scanLinesV1 ctx path isHistorical isStillTracked gitignoredExt (i + 1) rest

/-- Variant 1 duplicate removal (`secrets_scanner.py` lines 822-828): an
insertion-ordered map keyed by the bare fingerprint that keeps the first
finding seen for each fingerprint. -/
def dedupV1 (l : List Finding) : List Finding :=
  l.foldl
    (fun acc f =>
      if acc.any (fun g => g.fingerprint == f.fingerprint) then acc else acc ++ [f])
    []

/-- Variant 1 `SecretsScanner.scan` restricted to one content source:
the per-line pattern scan followed by the fingerprint dedup. -/
def scanV1 (ctx : ScanCtxV1) (path : String)
    (isHistorical isStillTracked gitignoredExt : Bool) (lines : List String) :
    List Finding :=
  dedupV1 (scanLinesV1 ctx path isHistorical isStillTracked gitignoredExt 1 lines)

/-- The replacement condition of variant 2's dedup (`secrets_scanner2.py`
lines 1570-1571): the new finding wins if it is HIGH and the survivor is
not, or it is MEDIUM and the survivor is LOW. -/
def betterSeverity (f ex : Finding) : Bool :=
  (f.severity == .HIGH && !(ex.severity == .HIGH)) ||
    (f.severity == .MEDIUM && ex.severity == .LOW)

/-- One step of variant 2's dedup dictionary: insert at the end when the
fingerprint is new, otherwise replace the stored survivor in place when
the new finding has strictly better severity. -/
def dedupStep (acc : List Finding) (f : Finding) : List Finding :=
  if acc.any (fun g => g.fingerprint == f.fingerprint) then
    acc.map (fun ex =>
      if ex.fingerprint == f.fingerprint && betterSeverity f ex then f else ex)
  else acc ++ [f]

/-- Variant 2 duplicate removal (`secrets_scanner2.py` lines 1562-1574):
insertion-ordered fingerprint map keeping the higher-severity finding. -/
def dedupV2 (l : List Finding) : List Finding :=
  l.foldl dedupStep []

/-- The tagging and escalation applied to one historical file's findings
in `GitHistoryScanner.scan_historical_files` (`secrets_scanner2.py`
lines 922-930). -/
def escalateFinding (isTracked : Bool) (f : Finding) : Finding :=
  let f1 := { f with isGitignored := true, inGitHistory := true,
                     isStillTracked := isTracked }
  if isTracked && !(f1.severity == .HIGH) then
    { f1 with severity := .HIGH,
              description := f1.description ++ " (Gitignored but still tracked in Git)" }
  else f1

/-- The git-history stream: per historical file, its scan findings paired
with the file's still-tracked flag, tagged and escalated. -/
def scanHistoricalFiles (groups : List (List Finding × Bool)) : List Finding :=
  (groups.map (fun g => g.1.map (escalateFinding g.2))).flatten

/-- Variant 2 `SecretsScanner.scan` steps 5 (`secrets_scanner2.py` lines
1559-1574): concatenate the pattern-scan, detect-secrets and git-history
streams in that order, then dedup by fingerprint. -/
def scanAllV2 (patternFindings detectFindings : List Finding)
    (histGroups : List (List Finding × Bool)) : List Finding :=
  dedupV2 (patternFindings ++ detectFindings ++ scanHistoricalFiles histGroups)

/-!
Pattern compilation (`_compile_patterns`, `secrets_scanner.py` lines
438-483 / `secrets_scanner2.py` lines 579-629).  `re.compile` is modelled
by an arbitrary partial compile oracle `c`; `try/except re.error` is the
`Option` case split (Python's `re.compile` raises nothing but
`re.error`).
-/

/-- The relaxed simplification attempted after a failed compile
(`pattern.replace('\s+', '\s*').replace('{10,}', '{10,100}')`). -/
def simplifyPattern (p : String) : String :=
  pyReplace (pyReplace p "\\s+" "\\s*") "\x7b10,\x7d" "\x7b10,100\x7d"

/-- Mode-dependent choice of the main pattern list (`secrets_scanner.py`
lines 441-444 / `secrets_scanner2.py` lines 586-590). -/
def patternsToUse (mode : String) (strictPats loosePats additionalPats : List String) :
    List String :=
  if mode = "strict" then strictPats else loosePats ++ additionalPats

/-- Compilation of the main patterns: on failure retry the simplified
pattern (keeping the original string in the pair), on a second failure
drop the pattern. -/
def compileWithRetry {M : Type} (c : String → Option M) (pats : List String) :
    List (M × String) :=
  pats.filterMap (fun p =>
    match c p with
    | some m => some (m, p)
    | none =>
        match c (simplifyPattern p) with
        | some m => some (m, p)
        | none => none)

/-- Compilation of the override / config-specific / exclusion patterns:
a failing pattern is dropped without retry. -/
def compileNoRetry {M : Type} (c : String → Option M) (pats : List String) :
    List (M × String) :=
  pats.filterMap (fun p => (c p).map (fun m => (m, p)))

/-!
Spec-side reconciliation, written from the specification's words
(spec 4.5 steps 2-3): group by fingerprint in first-occurrence order and
keep, per group, the first finding of maximal severity.
-/

/-- The first finding of maximal severity in a list (earlier findings win
ties; a strictly higher-ranked later finding wins). -/
def firstMaxBySeverity : List Finding → Option Finding
  | [] => none
  | g :: l =>
      match firstMaxBySeverity l with
      | none => some g
      | some b => if g.severity.rank < b.severity.rank then some b else some g

/-- The distinct fingerprints of a finding stream in order of first
occurrence. -/
def fingerprintKeys : List Finding → List String
  | [] => []
  | f :: l => f.fingerprint :: (fingerprintKeys l).filter (fun x => x != f.fingerprint)

/-- Spec-side dedup: one survivor per fingerprint, preferring HIGH, then
MEDIUM over LOW, ties broken by stream order. -/
def reconcileSpec (l : List Finding) : List Finding :=
  (fingerprintKeys l).filterMap (fun fp =>
    firstMaxBySeverity (l.filter (fun g => g.fingerprint == fp)))

/-!
The variant-1 default pattern groups, compiled (with `re.IGNORECASE`) for
strict mode.  Every matcher is the search function of the interpreter on
a direct transliteration of the raw pattern; top-level alternation and
optional multi-character groups are expanded into Boolean disjunctions
over word lists, which has the same `re.search` Boolean semantics.  The
second component of each pair is the exact raw pattern string of the
source (braces and apostrophes written with `\x`-escapes).
-/

/-- The class `[0-9a-f]`. -/
def hexCls : RAtom := .cls false [.crange '0' '9', .crange 'a' 'f']

/-- The class `[a-zA-Z0-9._-]`. -/
def identCls : RAtom :=
  .cls false [.crange 'a' 'z', .crange 'A' 'Z', .crange '0' '9',
    .single '.', .single '_', .single '-']

/-- The class `[0-9a-zA-Z]`. -/
def alnumCls : RAtom := .cls false [.crange '0' '9', .crange 'a' 'z', .crange 'A' 'Z']

/-- The negated class of whitespace and dollar, quantified `+`. -/
def nonWsDollarPlus : Piece :=
  (.cls true [.single ' ', .single '\t', .single '\n', .single '\x0b',
    .single '\x0c', .single '\x0d', .single '$'], .atLeast 1)

/-- The pieces of `\s*=\s*`. -/
def eqAssign : List Piece :=
  [(wsCls, .atLeast 0), (.lit '=', .one), (wsCls, .atLeast 0)]

/-- The negated class `[^=]`, quantified `+`. -/
def notEqPlus : Piece := (.cls true [.single '='], .atLeast 1)

/-- Variant 1 `strict_patterns` (`secrets_scanner.py` lines 360-366),
compiled with `re.IGNORECASE`. -/
def strictMatchersV1 : List Matcher :=
  [(fun s => rsearch true (litPieces "token") s.data, "token"),
   (fun s => rsearch true (litPieces "secret") s.data, "secret"),
   (fun s => rsearch true (litPieces "password") s.data, "password"),
   (fun s => rsearch true (litPieces "auth") s.data, "auth"),
   (fun s => rsearch true (litPieces "client") s.data, "client")]

/-- Variant 1 `override_patterns` (`secrets_scanner.py` lines 369-388),
compiled with `re.IGNORECASE`. -/
def overrideMatchersV1 : List Matcher :=
  [(fun s => rsearch true
      (litPieces "client_secret" ++ eqAssign ++
        List.replicate 8 ((hexCls, Quant.one) : Piece) ++ [((.lit '-' : RAtom), Quant.one)] ++
        List.replicate 4 ((hexCls, Quant.one) : Piece) ++ [((.lit '-' : RAtom), Quant.one)] ++
        List.replicate 4 ((hexCls, Quant.one) : Piece) ++ [((.lit '-' : RAtom), Quant.one)] ++
        List.replicate 4 ((hexCls, Quant.one) : Piece) ++ [((.lit '-' : RAtom), Quant.one)] ++
        List.replicate 12 ((hexCls, Quant.one) : Piece)) s.data,
    "client_secret\\s*=\\s*[0-9a-f]\x7b8\x7d-[0-9a-f]\x7b4\x7d-[0-9a-f]\x7b4\x7d-[0-9a-f]\x7b4\x7d-[0-9a-f]\x7b12\x7d"),
   (fun s => rsearch true
      (litPieces "client_secret" ++ eqAssign ++ [(identCls, .atLeast 1)]) s.data,
    "client_secret\\s*=\\s*[a-zA-Z0-9._-]+"),
   (fun s => rsearch true
      (litPieces "token" ++ eqAssign ++
        [(quoteCls, .one), (valueCls, .atLeast 16), (quoteCls, .one)]) s.data,
    "token\\s*=\\s*[\"\x27\x27][0-9a-zA-Z._=/-]\x7b16,\x7d[\"\x27\x27]"),
   (fun s => rsearch true
      (litPieces "secret" ++ eqAssign ++
        [(quoteCls, .one), (valueCls, .atLeast 16), (quoteCls, .one)]) s.data,
    "secret\\s*=\\s*[\"\x27\x27][0-9a-zA-Z._=/-]\x7b16,\x7d[\"\x27\x27]"),
   (fun s => rsearch true
      (litPieces "password" ++ eqAssign ++
        [(quoteCls, .one), (valueCls, .atLeast 8), (quoteCls, .one)]) s.data,
    "password\\s*=\\s*[\"\x27\x27][0-9a-zA-Z._=/-]\x7b8,\x7d[\"\x27\x27]"),
   (fun s => rsearch true
      (litPieces "access_key" ++ eqAssign ++
        [(quoteCls, .one), (alnumCls, .atLeast 16), (quoteCls, .one)]) s.data,
    "access_key\\s*=\\s*[\"\x27\x27][0-9a-zA-Z]\x7b16,\x7d[\"\x27\x27]"),
   (fun s =>
      [(":", "@"), (":", "%40"), ("%3A", "@"), ("%3A", "%40")].any (fun pr =>
        rsearch true
          (litPieces "DATABASE_URL" ++ eqAssign ++ [notEqPlus] ++
            litPieces pr.1 ++ [notEqPlus] ++ litPieces pr.2) s.data),
    "DATABASE_URL\\s*=\\s*[^=]+(:|%3A)[^=]+(@|%40)"),
   (fun s =>
      ["POSTGRES", "SQL", "DB", "MYSQL", "MONGO"].any (fun w =>
        ["", "WORD"].any (fun w2 =>
          rsearch true
            (litPieces w ++ [((.lit '_' : RAtom), Quant.opt)] ++
              litPieces ("PASS" ++ w2) ++ eqAssign ++ [nonWsDollarPlus]) s.data)),
    "(POSTGRES|SQL|DB|MYSQL|MONGO)(_)?PASS(WORD)?\\s*=\\s*[^\\s$]+"),
   (fun s => rsearch true
      (litPieces "PASSWORD" ++ eqAssign ++ [nonWsDollarPlus]) s.data,
    "PASSWORD\\s*=\\s*[^\\s$]+"),
   (fun s => rsearch true
      (litPieces "PASS" ++ eqAssign ++ [nonWsDollarPlus]) s.data,
    "PASS\\s*=\\s*[^\\s$]+"),
   (fun s => rsearch true
      (litPieces "PWD" ++ eqAssign ++ [nonWsDollarPlus]) s.data,
    "PWD\\s*=\\s*[^\\s$]+")]

/-- Variant 1 `config_patterns` (`secrets_scanner.py` lines 391-403),
compiled with `re.IGNORECASE`. -/
def configMatchersV1 : List Matcher :=
  [(fun s => rsearch true (litPieces "password" ++ eqAssign ++ [nonWsDollarPlus]) s.data,
    "password\\s*=\\s*[^\\s$]+"),
   (fun s => rsearch true (litPieces "secret" ++ eqAssign ++ [nonWsDollarPlus]) s.data,
    "secret\\s*=\\s*[^\\s$]+"),
   (fun s => rsearch true (litPieces "key" ++ eqAssign ++ [nonWsDollarPlus]) s.data,
    "key\\s*=\\s*[^\\s$]+"),
   (fun s => rsearch true (litPieces "token" ++ eqAssign ++ [nonWsDollarPlus]) s.data,
    "token\\s*=\\s*[^\\s$]+"),
   (fun s => rsearch true (litPieces "auth" ++ eqAssign ++ [nonWsDollarPlus]) s.data,
    "auth\\s*=\\s*[^\\s$]+"),
   (fun s => rsearch true (litPieces "credential" ++ eqAssign ++ [nonWsDollarPlus]) s.data,
    "credential\\s*=\\s*[^\\s$]+"),
   (fun s => rsearch true
      (litPieces "api" ++ [((.cls false [.single '_', .single '-'] : RAtom), Quant.opt)] ++
        litPieces "key" ++ eqAssign ++ [nonWsDollarPlus]) s.data,
    "api[_-]?key\\s*=\\s*[^\\s$]+"),
   (fun s => rsearch true (litPieces "database" ++ eqAssign ++ [nonWsDollarPlus]) s.data,
    "database\\s*=\\s*[^\\s$]+"),
   (fun s => rsearch true (litPieces "user" ++ eqAssign ++ [nonWsDollarPlus]) s.data,
    "user\\s*=\\s*[^\\s$]+"),
   (fun s => rsearch true (litPieces "pass" ++ eqAssign ++ [nonWsDollarPlus]) s.data,
    "pass\\s*=\\s*[^\\s$]+"),
   (fun s => rsearch true (litPieces "pwd" ++ eqAssign ++ [nonWsDollarPlus]) s.data,
    "pwd\\s*=\\s*[^\\s$]+")]

/-- The negated quote class `[^"\x27]`. -/
def negQuoteCls : RAtom := .cls true [.single '"', .single '\x27']

/-- Variant 1 `exclusion_patterns` (`secrets_scanner.py` lines 406-434),
compiled with `re.IGNORECASE`.  Note the source list has no comma between
its last two string literals, so Python concatenates them into the single
pattern `refresh_token=refresh_token0.0.0.0` — the list has nine
patterns, and its dots around the zeros are unescaped (match any
character).  Compilation keeps no pattern string for exclusions. -/
def exclusionMatchersV1 : List (String → Bool) :=
  [fun s => rsearch true
      (litPieces "console.log(" ++
        [(quoteCls, .one), (negQuoteCls, .atLeast 0), (quoteCls, .one),
          ((.lit ')' : RAtom), Quant.one)]) s.data,
   fun s =>
      ["example", "sample", "mock", "dummy", "test", "placeholder",
        "template", "default"].any (fun w => rsearch true (litPieces w) s.data),
   fun s =>
      rsearch true ([(wsCls, Quant.atLeast 0)] ++ litPieces "//") s.data ||
        rsearch true ([(wsCls, Quant.atLeast 0), ((.lit '#' : RAtom), Quant.one)]) s.data,
   fun s => ["TODO", "FIXME"].any (fun w => rsearch true (litPieces w) s.data),
   fun s =>
      ["github.com", "localhost", "127.0.1"].any (fun w =>
        rsearch true (litPieces w) s.data),
   fun s =>
      ["token management", "token information", "token endpoints"].any (fun w =>
        rsearch true (litPieces w) s.data),
   fun s => rsearch true
      (litPieces "token" ++ eqAssign ++
        [(wordCls, Quant.atLeast 1), ((.lit '.' : RAtom), Quant.one)] ++
        litPieces "json") s.data,
   fun s => rsearch true
      (litPieces "token" ++ eqAssign ++
        [(wordCls, Quant.atLeast 1), ((.lit '.' : RAtom), Quant.one)] ++
        litPieces "copy") s.data,
   fun s => rsearch true
      (litPieces "refresh_token=refresh_token" ++
        [((.lit '0' : RAtom), Quant.one), ((.any : RAtom), Quant.one),
          ((.lit '0' : RAtom), Quant.one), ((.any : RAtom), Quant.one),
          ((.lit '0' : RAtom), Quant.one), ((.any : RAtom), Quant.one),
          ((.lit '0' : RAtom), Quant.one)]) s.data]

/-- The variant-1 scanner state in strict mode with no allowlist entries
(so `_is_acceptable_finding` is constantly false) and `high_only`
disabled. -/
def v1StrictCtx : ScanCtxV1 :=
  { compiledPatterns := strictMatchersV1,
    compiledOverrides := overrideMatchersV1,
    compiledConfigPatterns := configMatchersV1,
    compiledExclusions := exclusionMatchersV1,
    allowGate := fun _ => false,
    highOnly := false }

/-!
Concrete fixtures used by the claim theorems, their witnesses and the
counterexamples.
-/

/-- The allowlist of Scenario F: the single glob entry. -/
def allowEntry42 : List String := ["src/config.py:42:*"]

/-- A finding in `src/config.py` at the given line with the given matched
pattern (the remaining fields are irrelevant to allowlist matching). -/
def cfgFinding (n : Nat) (p : String) : Finding :=
  { filePath := "src/config.py", lineNumber := n, lineContent := "",
    pattern := p }

/-- The pieces `42:` followed by `.*`, the suffix of the compiled glob. -/
def tailPieces42 : List Piece :=
  [((.lit '4' : RAtom), Quant.one), ((.lit '2' : RAtom), Quant.one),
   ((.lit ':' : RAtom), Quant.one), ((.any : RAtom), Quant.atLeast 0)]

/-- The pieces consuming `src/config.py:` (the `.` of `config.py` compiles
to an any-character atom because the stored entry is used as a regex
unescaped). -/
def prefixPieces42 : List Piece :=
  litPieces "src/config" ++ [((.any : RAtom), Quant.one)] ++ litPieces "py:"

/-- The compiled form of the Scenario F glob entry. -/
def pieces42val : List Piece := prefixPieces42 ++ tailPieces42

/-- A LOW finding used in the dedup counterexample. -/
def fLowC1 : Finding :=
  { filePath := "a.py", lineNumber := 3, lineContent := "secret = x",
    pattern := "primary", severity := .LOW }

/-- A HIGH finding with the same fingerprint as `fLowC1` but a different
matched pattern. -/
def fHighC1 : Finding :=
  { filePath := "a.py", lineNumber := 3, lineContent := "secret = x",
    pattern := "override", severity := .HIGH }

/-- Allowlist of the C5 counterexample: one exact, wildcard-free entry. -/
def allow5 : List String := ["a.py:1"]

/-- A finding whose bare fingerprint equals the stored entry `a.py:1`. -/
def f5finding : Finding :=
  { filePath := "a.py", lineNumber := 1, lineContent := "", pattern := "p" }

/-- A malformed glob entry: the wildcard makes the matcher build a regex,
and the unescaped `[` in the remainder leaves an unterminated character
set. -/
def badEntry : List String := ["src/config.py:42:[*"]

/-- A finding not matched by any exact check of `badEntry`. -/
def f8finding : Finding :=
  { filePath := "b.py", lineNumber := 1, lineContent := "", pattern := "p" }

/-- The single finding produced by the variant-1 strict-mode scan of the
line `user = x` in the non-config file `app.py`: its matched pattern is a
config-specific pattern. -/
def c3found : Finding :=
  { filePath := "app.py", lineNumber := 1, lineContent := "user = x",
    pattern := "user\\s*=\\s*[^\\s$]+", severity := .LOW,
    riskType := .HARDCODED_SECRET }

/-- A LOW finding fed through the git-history escalation in the C6
witness. -/
def f6base : Finding :=
  { filePath := "old.env", lineNumber := 2, lineContent := "password = x",
    pattern := "p", severity := .LOW }

/-- The escalated form of `f6base` for a still-tracked historical file. -/
def w6f : Finding := escalateFinding true f6base

/-- A tiny variant-2 scan context for the C3/C7 witnesses: one exclusion
matcher vetoing the line `BAD`, one primary matcher firing on the line
`ok`, no config patterns, empty allowlist, `high_only` off. -/
def w7ctx : ScanCtxV2 :=
  { compiledOverrides := [],
    compiledPatterns := [(fun s => s == "ok", "okpat")],
    compiledConfigPatterns := [(fun _ => true, "cfgpat")],
    compiledExclusions := [fun s => s == "BAD"],
    configFiles := [],
    allowGate := fun _ => false,
    highOnly := false }

/-- The finding the context `w7ctx` produces for the line `ok` at line
number 2. -/
def w7f : Finding :=
  { filePath := "p", lineNumber := 2, lineContent := "ok",
    pattern := "okpat", severity := .LOW, riskType := .HARDCODED_SECRET }

/-- The finding the context `w7ctx` produces for the line `ok` at line
number 1 (used by the C3 witness). -/
def w3f : Finding :=
  { filePath := "p", lineNumber := 1, lineContent := "ok",
    pattern := "okpat", severity := .LOW, riskType := .HARDCODED_SECRET }

/-- A compile oracle for the C9 witness: the patterns `alpha` and
`b\s*` compile, everything else fails (so `b\s+` fails as written but
succeeds after the relaxed simplification). -/
def w9c : String → Option Unit :=
  fun p => if p = "alpha" || p = "b\\s*" then some () else none

/-- The raw pattern list of the C9 witness: one pattern that compiles
directly, one that compiles only after simplification, and one that never
compiles. -/
def w9pats : List String := ["alpha", "b\\s+", "bad["]

/-- A tiny variant-1 scan context for the C7 witness: one exclusion
matcher vetoing the line `BAD` and one primary matcher firing on the line
`ok`. -/
def w7ctxV1 : ScanCtxV1 :=
  { compiledPatterns := [(fun s => s == "ok", "okpat")],
    compiledOverrides := [],
    compiledConfigPatterns := [],
    compiledExclusions := [fun s => s == "BAD"],
    allowGate := fun _ => false,
    highOnly := false }

/-!
Facts about `Nat.repr`, needed to reason about fingerprints with a
symbolic line number: every character of a decimal representation is a
digit, and `42` is the only number whose representation is `"42"`.
-/

theorem toDigitsCore_acc (b : Nat) :
    ∀ (fuel n : Nat) (acc : List Char),
      Nat.toDigitsCore b fuel n acc = Nat.toDigitsCore b fuel n [] ++ acc := by
  intro fuel
  induction fuel with
  | zero => intro n acc; simp [Nat.toDigitsCore]
  | succ f ih =>
      intro n acc
      simp only [Nat.toDigitsCore]
      by_cases h : n / b = 0
      · simp [h]
      · simp only [h, if_false]
        rw [ih (n / b) (Nat.digitChar (n % b) :: acc),
          ih (n / b) [Nat.digitChar (n % b)]]
        simp

theorem toDigitsCore_fuel (n : Nat) :
    ∀ (f₁ f₂ : Nat) (acc : List Char), n < f₁ → n < f₂ →
      Nat.toDigitsCore 10 f₁ n acc = Nat.toDigitsCore 10 f₂ n acc := by
  induction n using Nat.strong_induction_on with
  | _ n ih =>
    intro f₁ f₂ acc h₁ h₂
    match f₁, f₂ with
    | g₁ + 1, g₂ + 1 =>
      simp only [Nat.toDigitsCore]
      by_cases h : n / 10 = 0
      · simp [h]
      · simp only [h, if_false]
        have hn : 0 < n := by
          rcases Nat.eq_zero_or_pos n with h0 | h0
          · exfalso; apply h; simp [h0]
          · exact h0
        have hlt : n / 10 < n := Nat.div_lt_self hn (by norm_num)
        exact ih (n / 10) hlt g₁ g₂ _ (by omega) (by omega)

theorem toDigits_lt10 (n : Nat) (h : n < 10) :
    Nat.toDigits 10 n = [Nat.digitChar n] := by
  simp [Nat.toDigits, Nat.toDigitsCore, Nat.div_eq_of_lt h, Nat.mod_eq_of_lt h]

theorem toDigits_ge10 (n : Nat) (h : 10 ≤ n) :
    Nat.toDigits 10 n = Nat.toDigits 10 (n / 10) ++ [Nat.digitChar (n % 10)] := by
  have h0 : ¬ n / 10 = 0 := by omega
  unfold Nat.toDigits
  simp only [Nat.toDigitsCore, h0, if_false]
  rw [toDigitsCore_acc]
  congr 1
  exact toDigitsCore_fuel (n / 10) n (n / 10 + 1) [] (by omega) (by omega)

theorem toDigits_ne_nil (n : Nat) : Nat.toDigits 10 n ≠ [] := by
  rcases Nat.lt_or_ge n 10 with h | h
  · rw [toDigits_lt10 n h]; simp
  · rw [toDigits_ge10 n h]; simp

theorem digitChar_isDigit : ∀ m, m < 10 → (Nat.digitChar m).isDigit = true := by decide

theorem digitChar_four : ∀ m, m < 10 → Nat.digitChar m = '4' → m = 4 := by decide

theorem digitChar_two : ∀ m, m < 10 → Nat.digitChar m = '2' → m = 2 := by decide

theorem toDigits_digits (n : Nat) : ∀ c ∈ Nat.toDigits 10 n, c.isDigit = true := by
  induction n using Nat.strong_induction_on with
  | _ n ih =>
    rcases Nat.lt_or_ge n 10 with h | h
    · rw [toDigits_lt10 n h]
      intro c hc
      simp only [List.mem_singleton] at hc
      subst hc
      exact digitChar_isDigit n h
    · rw [toDigits_ge10 n h]
      intro c hc
      rcases List.mem_append.mp hc with hc | hc
      · exact ih (n / 10) (Nat.div_lt_self (by omega) (by norm_num)) c hc
      · simp only [List.mem_singleton] at hc
        subst hc
        exact digitChar_isDigit _ (Nat.mod_lt n (by norm_num))

theorem repr_data (n : Nat) : (Nat.repr n).data = Nat.toDigits 10 n := rfl

theorem repr_digits (n : Nat) : ∀ c ∈ (Nat.repr n).data, c.isDigit = true := by
  rw [repr_data]; exact toDigits_digits n

theorem repr_eq_42 (n : Nat) (h : (Nat.repr n).data = ['4', '2']) : n = 42 := by
  rw [repr_data] at h
  rcases Nat.lt_or_ge n 10 with h10 | h10
  · rw [toDigits_lt10 n h10] at h
    simp at h
  · rw [toDigits_ge10 n h10] at h
    rcases Nat.lt_or_ge (n / 10) 10 with h2 | h2
    · rw [toDigits_lt10 _ h2] at h
      have h' : Nat.digitChar (n / 10) = '4' ∧ Nat.digitChar (n % 10) = '2' := by
        simpa using h
      have d1 := digitChar_four (n / 10) h2 h'.1
      have d2 := digitChar_two (n % 10) (Nat.mod_lt n (by norm_num)) h'.2
      omega
    · exfalso
      rw [toDigits_ge10 _ h2] at h
      have hl := congrArg List.length h
      simp only [List.length_append, List.length_cons, List.length_nil] at hl
      have hx : Nat.toDigits 10 (n / 10 / 10) = [] :=
        List.length_eq_zero.mp (by omega)
      exact toDigits_ne_nil _ hx

theorem repr_ne_42 (n : Nat) (hn : n ≠ 42) : (Nat.repr n).data ≠ ['4', '2'] := by
  intro h
  exact hn (repr_eq_42 n h)

/-!
Lemmas about the regex interpreter: the fuel is irrelevant above the
measure `ps.length + s.length`, which yields the expected step equations
for `matchSeq`; those are then specialised to the Scenario F glob.
-/

theorem matchSeqGo_fuel (ci : Bool) :
    ∀ (f1 f2 : Nat) (ps : List Piece) (s : List Char),
      ps.length + s.length < f1 → ps.length + s.length < f2 →
      matchSeqGo ci f1 ps s = matchSeqGo ci f2 ps s := by
  intro f1
  induction f1 with
  | zero => intro f2 ps s h1 _; omega
  | succ g1 ih =>
      intro f2 ps s h1 h2
      match f2 with
      | 0 => omega
      | g2 + 1 =>
        match ps, s with
        | [], s => simp [matchSeqGo]
        | (a, .one) :: ps, [] => simp [matchSeqGo]
        | (a, .one) :: ps, c :: s =>
            simp only [matchSeqGo]
            rw [ih g2 ps s (by simp at h1 ⊢; omega) (by simp at h2 ⊢; omega)]
        | (a, .opt) :: ps, [] =>
            simp only [matchSeqGo]
            rw [ih g2 ps [] (by simp at h1 ⊢; omega) (by simp at h2 ⊢; omega)]
        | (a, .opt) :: ps, c :: s =>
            simp only [matchSeqGo]
            rw [ih g2 ps (c :: s) (by simp at h1 ⊢; omega) (by simp at h2 ⊢; omega),
              ih g2 ps s (by simp at h1 ⊢; omega) (by simp at h2 ⊢; omega)]
        | (a, .atLeast 0) :: ps, [] =>
            simp only [matchSeqGo]
            rw [ih g2 ps [] (by simp at h1 ⊢; omega) (by simp at h2 ⊢; omega)]
        | (a, .atLeast 0) :: ps, c :: s =>
            simp only [matchSeqGo]
            rw [ih g2 ps (c :: s) (by simp at h1 ⊢; omega) (by simp at h2 ⊢; omega),
              ih g2 ((a, .atLeast 0) :: ps) s (by simp at h1 ⊢; omega)
                (by simp at h2 ⊢; omega)]
        | (a, .atLeast (n + 1)) :: ps, [] => simp [matchSeqGo]
        | (a, .atLeast (n + 1)) :: ps, c :: s =>
            simp only [matchSeqGo]
            rw [ih g2 ((a, .atLeast n) :: ps) s (by simp at h1 ⊢; omega)
              (by simp at h2 ⊢; omega)]

theorem matchSeqGo_adequate (ci : Bool) (f : Nat) (ps : List Piece) (s : List Char)
    (h : ps.length + s.length < f) : matchSeqGo ci f ps s = matchSeq ci ps s :=
  matchSeqGo_fuel ci f (ps.length + s.length + 1) ps s h (by omega)

theorem matchSeq_nil (ci : Bool) (s : List Char) : matchSeq ci [] s = true := by
  simp [matchSeq, matchSeqGo]

theorem matchSeq_one_nil (ci : Bool) (a : RAtom) (ps : List Piece) :
    matchSeq ci ((a, Quant.one) :: ps) [] = false := by
  simp [matchSeq, matchSeqGo]

theorem matchSeq_one_cons (ci : Bool) (a : RAtom) (ps : List Piece) (c : Char)
    (s : List Char) :
    matchSeq ci ((a, Quant.one) :: ps) (c :: s) = (amatch ci a c && matchSeq ci ps s) := by
  obtain ⟨G, hG⟩ : ∃ G, G = ps.length + s.length + 2 := ⟨_, rfl⟩
  have h1 : matchSeq ci ((a, Quant.one) :: ps) (c :: s) =
      matchSeqGo ci (G + 1) ((a, Quant.one) :: ps) (c :: s) := by
    unfold matchSeq
    exact matchSeqGo_fuel ci _ _ _ _
      (by simp only [List.length_cons]; omega)
      (by simp only [hG, List.length_cons]; omega)
  rw [h1]
  simp only [matchSeqGo]
  rw [matchSeqGo_adequate ci G ps s (by simp only [hG]; omega)]

theorem matchSeq_star_nil (ci : Bool) (a : RAtom) (ps : List Piece) :
    matchSeq ci ((a, Quant.atLeast 0) :: ps) [] = matchSeq ci ps [] := by
  obtain ⟨G, hG⟩ : ∃ G, G = ps.length + 1 := ⟨_, rfl⟩
  have h1 : matchSeq ci ((a, Quant.atLeast 0) :: ps) [] =
      matchSeqGo ci (G + 1) ((a, Quant.atLeast 0) :: ps) [] := by
    unfold matchSeq
    exact matchSeqGo_fuel ci _ _ _ _
      (by simp only [List.length_cons, List.length_nil]; omega)
      (by simp only [hG, List.length_cons, List.length_nil]; omega)
  rw [h1]
  simp only [matchSeqGo]
  rw [matchSeqGo_adequate ci G ps [] (by simp only [hG, List.length_nil]; omega)]
  simp

theorem matchSeq_star_cons (ci : Bool) (a : RAtom) (ps : List Piece) (c : Char)
    (s : List Char) :
    matchSeq ci ((a, Quant.atLeast 0) :: ps) (c :: s) =
      (matchSeq ci ps (c :: s) ||
        (amatch ci a c && matchSeq ci ((a, Quant.atLeast 0) :: ps) s)) := by
  obtain ⟨G, hG⟩ : ∃ G, G = ps.length + s.length + 2 := ⟨_, rfl⟩
  have h1 : matchSeq ci ((a, Quant.atLeast 0) :: ps) (c :: s) =
      matchSeqGo ci (G + 1) ((a, Quant.atLeast 0) :: ps) (c :: s) := by
    unfold matchSeq
    exact matchSeqGo_fuel ci _ _ _ _
      (by simp only [List.length_cons]; omega)
      (by simp only [hG, List.length_cons]; omega)
  rw [h1]
  simp only [matchSeqGo]
  rw [matchSeqGo_adequate ci G ps (c :: s) (by simp only [hG, List.length_cons]; omega),
    matchSeqGo_adequate ci G ((a, Quant.atLeast 0) :: ps) s
      (by simp only [hG, List.length_cons]; omega)]

theorem matchSeq_atLeastSucc_nil (ci : Bool) (a : RAtom) (n : Nat) (ps : List Piece) :
    matchSeq ci ((a, Quant.atLeast (n + 1)) :: ps) [] = false := by
  simp [matchSeq, matchSeqGo]

theorem amatch_lit_self (ci : Bool) (c : Char) : amatch ci (.lit c) c = true := by
  cases ci <;> simp [amatch, amatchCS, amatchCI]

theorem amatch_any (ci : Bool) (c : Char) : amatch ci .any c = true := by
  cases ci <;> simp [amatch, amatchCS, amatchCI]

theorem matchSeq_lits (ci : Bool) (cs : List Char) (ps : List Piece) (t : List Char) :
    matchSeq ci (cs.map (fun c => ((RAtom.lit c : RAtom), Quant.one)) ++ ps) (cs ++ t) =
      matchSeq ci ps t := by
  induction cs with
  | nil => rfl
  | cons c cs ih =>
      simp only [List.map_cons, List.cons_append]
      rw [matchSeq_one_cons, amatch_lit_self, Bool.true_and, ih]

theorem matchSeq_litPieces (ci : Bool) (s : String) (ps : List Piece) (t : List Char) :
    matchSeq ci (litPieces s ++ ps) (s.data ++ t) = matchSeq ci ps t :=
  matchSeq_lits ci s.data ps t

theorem matchSeq_any_cons (ci : Bool) (ps : List Piece) (c : Char) (t : List Char) :
    matchSeq ci (((.any : RAtom), Quant.one) :: ps) (c :: t) = matchSeq ci ps t := by
  rw [matchSeq_one_cons, amatch_any, Bool.true_and]

theorem matchSeq_starAny (ci : Bool) (t : List Char) :
    matchSeq ci [((.any : RAtom), Quant.atLeast 0)] t = true := by
  cases t with
  | nil => rw [matchSeq_star_nil, matchSeq_nil]
  | cons c s => rw [matchSeq_star_cons, matchSeq_nil]; simp

theorem matchSeq_prefix42 (t : List Char) (qs : List Piece) :
    matchSeq false (prefixPieces42 ++ qs) ("src/config.py:".data ++ t) =
      matchSeq false qs t := by
  have hsub : "src/config.py:".data ++ t =
      "src/config".data ++ ('.' :: ("py:".data ++ t)) := by rfl
  rw [hsub, prefixPieces42]
  rw [List.append_assoc, List.append_assoc]
  rw [matchSeq_litPieces]
  rw [List.singleton_append, matchSeq_any_cons, matchSeq_litPieces]

theorem tail42_pos (t : List Char) :
    matchSeq false tailPieces42 ('4' :: '2' :: ':' :: t) = true := by
  rw [tailPieces42]
  rw [matchSeq_one_cons, amatch_lit_self, Bool.true_and]
  rw [matchSeq_one_cons, amatch_lit_self, Bool.true_and]
  rw [matchSeq_one_cons, amatch_lit_self, Bool.true_and]
  exact matchSeq_starAny false t

theorem amatch_colon_digit (c : Char) (hc : c.isDigit = true) :
    amatch false (.lit ':') c = false := by
  have hne : ':' ≠ c := by
    intro h
    rw [← h] at hc
    exact absurd hc (by decide)
  simp only [amatch, amatchCS, if_false, Bool.if_false_left]
  exact beq_eq_false_iff_ne.mpr hne

theorem tail42_bare_neg (dn : List Char) (hdig : ∀ c ∈ dn, c.isDigit = true) :
    matchSeq false tailPieces42 dn = false := by
  match dn with
  | [] => rw [tailPieces42, matchSeq_one_nil]
  | [a] =>
      rw [tailPieces42, matchSeq_one_cons, matchSeq_one_nil]
      simp
  | [a, b] =>
      rw [tailPieces42, matchSeq_one_cons, matchSeq_one_cons, matchSeq_one_nil]
      simp
  | a :: b :: c :: t =>
      have hcc := amatch_colon_digit c (hdig c (by simp))
      rw [tailPieces42, matchSeq_one_cons, matchSeq_one_cons, matchSeq_one_cons, hcc]
      simp

theorem tail42_full_neg (dn : List Char) (p : List Char)
    (hdig : ∀ c ∈ dn, c.isDigit = true) (hne : dn ≠ ['4', '2']) :
    matchSeq false tailPieces42 (dn ++ ':' :: p) = false := by
  match dn with
  | [] =>
      rw [List.nil_append, tailPieces42, matchSeq_one_cons]
      have : amatch false (.lit '4') ':' = false := by decide
      rw [this]
      simp
  | [a] =>
      rw [List.cons_append, List.nil_append, tailPieces42, matchSeq_one_cons,
        matchSeq_one_cons]
      have : amatch false (.lit '2') ':' = false := by decide
      rw [this]
      simp
  | [a, b] =>
      have hab : ¬(a = '4' ∧ b = '2') := by
        intro hx
        exact hne (by rw [hx.1, hx.2])
      rw [List.cons_append, List.cons_append, List.nil_append, tailPieces42,
        matchSeq_one_cons, matchSeq_one_cons]
      rcases Decidable.em (a = '4') with ha | ha
      · rcases Decidable.em (b = '2') with hb | hb
        · exact absurd ⟨ha, hb⟩ hab
        · have hbb : amatch false (.lit '2') b = false := by
            simp only [amatch, amatchCS, if_false, Bool.if_false_left]
            exact beq_eq_false_iff_ne.mpr (fun h => hb h.symm)
          rw [hbb]
          simp
      · have haa : amatch false (.lit '4') a = false := by
          simp only [amatch, amatchCS, if_false, Bool.if_false_left]
          exact beq_eq_false_iff_ne.mpr (fun h => ha h.symm)
        rw [haa]
        simp
  | a :: b :: c :: t =>
      have hcc := amatch_colon_digit c (hdig c (by simp))
      rw [List.cons_append, List.cons_append, List.cons_append, tailPieces42,
        matchSeq_one_cons, matchSeq_one_cons, matchSeq_one_cons, hcc]
      simp

/-!
Allowlist behaviour on the Scenario F entry.
-/

theorem pieces42_parse : reParse (globRegex "src/config.py:42:*") = .ok pieces42val := by
  decide

theorem cfg_fingerprint_data (n : Nat) (p : String) :
    (cfgFinding n p).fingerprint.data = "src/config.py:".data ++ (Nat.repr n).data := by
  show ("src/config.py" ++ ":" ++ Nat.repr n).data = _
  simp only [String.data_append, List.append_assoc]
  rfl

theorem cfg_full_data (n : Nat) (p : String) :
    (cfgFinding n p).fullFingerprint.data =
      "src/config.py:".data ++ ((Nat.repr n).data ++ ':' :: p.data) := by
  show ("src/config.py" ++ ":" ++ Nat.repr n ++ ":" ++ p).data = _
  simp only [String.data_append, List.append_assoc]
  rfl

theorem entry42_data :
    ("src/config.py:42:*" : String).data =
      "src/config.py:".data ++ ['4', '2', ':', '*'] := by rfl

theorem cfg_fingerprint_ne_entry (n : Nat) (p : String) :
    (cfgFinding n p).fingerprint ≠ "src/config.py:42:*" := by
  intro h
  have hd := congrArg String.data h
  rw [cfg_fingerprint_data, entry42_data] at hd
  have hdn := List.append_cancel_left hd
  have hmem : ':' ∈ (Nat.repr n).data := by rw [hdn]; simp
  exact absurd (repr_digits n ':' hmem) (by decide)

theorem cfg_full_ne_entry (n : Nat) (p : String) (hn : n ≠ 42) :
    (cfgFinding n p).fullFingerprint ≠ "src/config.py:42:*" := by
  intro h
  have hd := congrArg String.data h
  rw [cfg_full_data, entry42_data] at hd
  have hdn := List.append_cancel_left hd
  match hh : (Nat.repr n).data with
  | [] =>
      rw [hh] at hdn
      simp at hdn
  | [a] =>
      rw [hh] at hdn
      simp at hdn
  | a :: b :: rest =>
      rw [hh] at hdn
      simp only [List.cons_append, List.cons.injEq] at hdn
      obtain ⟨ha, hb, hrest⟩ := hdn
      match hr : rest with
      | [] =>
          exact repr_ne_42 n hn (by rw [hh, ha, hb])
      | c :: rest2 =>
          simp only [List.cons_append, List.cons.injEq] at hrest
          have hcd : c.isDigit = true := by
            apply repr_digits n c
            rw [hh]
            simp
          rw [hrest.1] at hcd
          exact absurd hcd (by decide)

theorem glob42_bare_neg (n : Nat) (p : String) :
    matchSeq false pieces42val (cfgFinding n p).fingerprint.data = false := by
  rw [cfg_fingerprint_data, pieces42val, matchSeq_prefix42]
  exact tail42_bare_neg _ (repr_digits n)

theorem glob42_full_pos (p : String) :
    matchSeq false pieces42val (cfgFinding 42 p).fullFingerprint.data = true := by
  rw [cfg_full_data, pieces42val, matchSeq_prefix42]
  have h : (Nat.repr 42).data = ['4', '2'] := by decide
  rw [h, List.cons_append, List.cons_append, List.nil_append]
  exact tail42_pos p.data

theorem glob42_full_neg (n : Nat) (p : String) (hn : n ≠ 42) :
    matchSeq false pieces42val (cfgFinding n p).fullFingerprint.data = false := by
  rw [cfg_full_data, pieces42val, matchSeq_prefix42]
  exact tail42_full_neg _ _ (repr_digits n) (repr_ne_42 n hn)

theorem isAllowlisted_line42 (p : String) :
    isAllowlisted allowEntry42 (cfgFinding 42 p) = .ok true := by
  unfold isAllowlisted allowEntry42
  rw [if_neg (by simp only [List.mem_singleton]; exact cfg_fingerprint_ne_entry 42 p)]
  by_cases hf : (cfgFinding 42 p).fullFingerprint = "src/config.py:42:*"
  · rw [if_pos (by simp only [List.mem_singleton]; exact hf)]
  · rw [if_neg (by simp only [List.mem_singleton]; exact hf)]
    simp only [isAllowlistedGo, pieces42_parse]
    rw [glob42_bare_neg 42 p, glob42_full_pos p]
    simp

theorem isAllowlisted_other_line (n : Nat) (p : String) (hn : n ≠ 42) :
    isAllowlisted allowEntry42 (cfgFinding n p) = .ok false := by
  unfold isAllowlisted allowEntry42
  rw [if_neg (by simp only [List.mem_singleton]; exact cfg_fingerprint_ne_entry n p)]
  rw [if_neg (by simp only [List.mem_singleton]; exact cfg_full_ne_entry n p hn)]
  simp only [isAllowlistedGo, pieces42_parse]
  rw [glob42_bare_neg n p, glob42_full_neg n p hn]
  simp [isAllowlistedGo]

theorem isAcceptable_line42 (p : String) :
    isAcceptableFinding allowEntry42 (cfgFinding 42 p) = .ok true := by
  unfold isAcceptableFinding allowEntry42
  by_cases hf : (cfgFinding 42 p).fullFingerprint = "src/config.py:42:*"
  · simp only [isAcceptableGo, if_pos hf]
  · simp only [isAcceptableGo, if_neg hf, pieces42_parse]
    rw [glob42_full_pos p]
    simp

theorem isAcceptable_other_line (n : Nat) (p : String) (hn : n ≠ 42) :
    isAcceptableFinding allowEntry42 (cfgFinding n p) = .ok false := by
  unfold isAcceptableFinding allowEntry42
  simp only [isAcceptableGo, if_neg (cfg_full_ne_entry n p hn), pieces42_parse]
  rw [glob42_full_neg n p hn]
  simp [isAcceptableGo]

/-!
The variant-2 dedup agrees with the specification's reconciliation:
grouped by fingerprint in first-occurrence order, the survivor of each
group is its first finding of maximal severity.
-/

theorem betterSeverity_iff (f ex : Finding) :
    betterSeverity f ex = true ↔ ex.severity.rank < f.severity.rank := by
  cases hf : f.severity <;> cases he : ex.severity <;>
    simp [betterSeverity, Severity.rank, hf, he]

theorem firstMax_mem {l : List Finding} {b : Finding}
    (h : firstMaxBySeverity l = some b) : b ∈ l := by
  induction l with
  | nil => simp [firstMaxBySeverity] at h
  | cons g l ih =>
      cases hl : firstMaxBySeverity l with
      | none =>
          simp only [firstMaxBySeverity, hl] at h
          simp at h
          simp [h]
      | some b2 =>
          simp only [firstMaxBySeverity, hl] at h
          by_cases hr : g.severity.rank < b2.severity.rank
          · rw [if_pos hr] at h
            simp at h
            rw [h] at hl
            exact List.mem_cons_of_mem g (ih hl)
          · rw [if_neg hr] at h
            simp at h
            simp [h]

theorem firstMax_none {l : List Finding} (h : firstMaxBySeverity l = none) : l = [] := by
  cases l with
  | nil => rfl
  | cons g l =>
      cases hl : firstMaxBySeverity l with
      | none => simp only [firstMaxBySeverity, hl] at h; simp at h
      | some b2 =>
          simp only [firstMaxBySeverity, hl] at h
          by_cases hr : g.severity.rank < b2.severity.rank <;> simp [hr] at h

theorem firstMax_isSome {l : List Finding} (h : l ≠ []) :
    ∃ b, firstMaxBySeverity l = some b := by
  cases hl : firstMaxBySeverity l with
  | none => exact absurd (firstMax_none hl) h
  | some b => exact ⟨b, rfl⟩

theorem firstMax_append_single (l : List Finding) (f : Finding) :
    firstMaxBySeverity (l ++ [f]) =
      (match firstMaxBySeverity l with
        | none => some f
        | some b => if b.severity.rank < f.severity.rank then some f else some b) := by
  induction l with
  | nil => simp [firstMaxBySeverity]
  | cons g l ih =>
      cases hl : firstMaxBySeverity l with
      | none =>
          simp only [List.cons_append, firstMaxBySeverity, List.append_eq]
          rw [ih, hl]
      | some b =>
          simp only [List.cons_append, firstMaxBySeverity, List.append_eq]
          rw [ih, hl]
          by_cases h1 : b.severity.rank < f.severity.rank
          · by_cases h2 : g.severity.rank < b.severity.rank
            · have h3 : g.severity.rank < f.severity.rank := by omega
              simp [h1, h2, h3]
            · simp [h1, h2]
          · by_cases h2 : g.severity.rank < b.severity.rank
            · simp [h1, h2]
            · have h3 : ¬ g.severity.rank < f.severity.rank := by omega
              simp [h1, h2, h3]

theorem keys_sound {l : List Finding} {g : Finding} (h : g ∈ l) :
    g.fingerprint ∈ fingerprintKeys l := by
  induction l with
  | nil => simp at h
  | cons f l ih =>
      simp only [fingerprintKeys]
      rcases List.mem_cons.mp h with h | h
      · rw [h]; simp
      · by_cases he : g.fingerprint = f.fingerprint
        · rw [he]; simp
        · apply List.mem_cons_of_mem
          exact List.mem_filter.mpr ⟨ih h, by simp [bne, he]⟩

theorem keys_complete {l : List Finding} {fp : String}
    (h : fp ∈ fingerprintKeys l) : ∃ g ∈ l, g.fingerprint = fp := by
  induction l with
  | nil => simp [fingerprintKeys] at h
  | cons f l ih =>
      simp only [fingerprintKeys, List.mem_cons] at h
      rcases h with h | h
      · exact ⟨f, by simp, h.symm⟩
      · obtain ⟨g, hg, hfp⟩ := ih (List.mem_filter.mp h).1
        exact ⟨g, by simp [hg], hfp⟩

theorem keys_append_single (l : List Finding) (f : Finding) :
    fingerprintKeys (l ++ [f]) =
      if f.fingerprint ∈ fingerprintKeys l then fingerprintKeys l
      else fingerprintKeys l ++ [f.fingerprint] := by
  induction l with
  | nil => simp [fingerprintKeys]
  | cons g l ih =>
      simp only [List.cons_append, List.append_eq, fingerprintKeys]
      rw [ih]
      by_cases hin : f.fingerprint ∈ fingerprintKeys l
      · rw [if_pos hin]
        have hm2 : f.fingerprint ∈ g.fingerprint :: (fingerprintKeys l).filter
            (fun x => x != g.fingerprint) := by
          by_cases he : f.fingerprint = g.fingerprint
          · rw [he]; simp
          · exact List.mem_cons_of_mem _
              (List.mem_filter.mpr ⟨hin, by simp [bne, he]⟩)
        rw [if_pos hm2]
      · rw [if_neg hin]
        by_cases he : f.fingerprint = g.fingerprint
        · have hm : f.fingerprint ∈ g.fingerprint :: (fingerprintKeys l).filter
              (fun x => x != g.fingerprint) := by rw [he]; simp
          rw [if_pos hm, List.filter_append]
          have hf0 : ([f.fingerprint].filter (fun x => x != g.fingerprint)) = [] := by
            simp [bne, he]
          rw [hf0, List.append_nil]
        · have hnotin : f.fingerprint ∉ g.fingerprint :: (fingerprintKeys l).filter
              (fun x => x != g.fingerprint) := by
            simp only [List.mem_cons, List.mem_filter]
            push_neg
            exact ⟨he, fun hmem _ => absurd hmem hin⟩
          rw [if_neg hnotin, List.filter_append]
          have hf1 : ([f.fingerprint].filter (fun x => x != g.fingerprint)) =
              [f.fingerprint] := by
            simp [bne, he]
          rw [hf1]

theorem fingerprintKeys_nodup (l : List Finding) : (fingerprintKeys l).Nodup := by
  induction l with
  | nil => simp [fingerprintKeys]
  | cons f l ih =>
      simp only [fingerprintKeys]
      refine List.Nodup.cons ?_ (List.Nodup.filter _ ih)
      intro hmem
      have := (List.mem_filter.mp hmem).2
      simp [bne] at this

theorem reconcile_key_mem {l : List Finding} {x : Finding} (h : x ∈ reconcileSpec l) :
    x.fingerprint ∈ fingerprintKeys l ∧ x ∈ l := by
  obtain ⟨fp, hfp, hx⟩ := List.mem_filterMap.mp h
  have hxmem := firstMax_mem hx
  have hbeq := (List.mem_filter.mp hxmem).2
  have hxl := (List.mem_filter.mp hxmem).1
  have heq : x.fingerprint = fp := by simpa using hbeq
  exact ⟨heq ▸ hfp, hxl⟩

theorem reconcile_exists_of_key {l : List Finding} {fp : String}
    (h : fp ∈ fingerprintKeys l) : ∃ x ∈ reconcileSpec l, x.fingerprint = fp := by
  obtain ⟨g, hg, hgfp⟩ := keys_complete h
  have hmemf : g ∈ l.filter (fun y => y.fingerprint == fp) :=
    List.mem_filter.mpr ⟨hg, by simp [hgfp]⟩
  obtain ⟨b, hb⟩ := firstMax_isSome (List.ne_nil_of_mem hmemf)
  refine ⟨b, List.mem_filterMap.mpr ⟨fp, h, hb⟩, ?_⟩
  have hbeq := (List.mem_filter.mp (firstMax_mem hb)).2
  simpa using hbeq

theorem reconcileSpec_append_single (m : List Finding) (f : Finding) :
    reconcileSpec (m ++ [f]) = dedupStep (reconcileSpec m) f := by
  by_cases h : f.fingerprint ∈ fingerprintKeys m
  · have hany : (reconcileSpec m).any (fun g => g.fingerprint == f.fingerprint) = true := by
      obtain ⟨x, hx, hfp⟩ := reconcile_exists_of_key h
      exact List.any_eq_true.mpr ⟨x, hx, by simp [hfp]⟩
    unfold dedupStep
    rw [if_pos hany]
    unfold reconcileSpec
    rw [keys_append_single, if_pos h, List.map_filterMap]
    apply List.filterMap_congr
    intro fp hfp
    rw [List.filter_append]
    obtain ⟨g0, hg0, hg0fp⟩ := keys_complete hfp
    have hmemf : g0 ∈ m.filter (fun y => y.fingerprint == fp) :=
      List.mem_filter.mpr ⟨hg0, by simp [hg0fp]⟩
    obtain ⟨b, hb⟩ := firstMax_isSome (List.ne_nil_of_mem hmemf)
    have hbfp : b.fingerprint = fp := by
      have := (List.mem_filter.mp (firstMax_mem hb)).2
      simpa using this
    by_cases hfpf : f.fingerprint = fp
    · have hfilter1 : List.filter (fun g => g.fingerprint == fp) [f] = [f] := by
        simp [hfpf]
      rw [hfilter1, firstMax_append_single, hb]
      simp only [Option.map_some']
      by_cases hr : b.severity.rank < f.severity.rank
      · rw [if_pos hr]
        have hcond : (b.fingerprint == f.fingerprint && betterSeverity f b) = true := by
          rw [(betterSeverity_iff f b).mpr hr, hbfp, hfpf]
          simp
        rw [if_pos hcond]
      · rw [if_neg hr]
        have hb2 : betterSeverity f b = false := by
          rw [← Bool.not_eq_true, betterSeverity_iff]
          omega
        have hcond : (b.fingerprint == f.fingerprint && betterSeverity f b) = false := by
          rw [hb2]
          simp
        rw [if_neg (by rw [hcond]; exact Bool.false_ne_true)]
    · have hfilter0 : List.filter (fun g => g.fingerprint == fp) [f] = [] := by
        simp [hfpf]
      rw [hfilter0, List.append_nil, hb]
      simp only [Option.map_some']
      have hcond : (b.fingerprint == f.fingerprint && betterSeverity f b) = false := by
        have : (b.fingerprint == f.fingerprint) = false := by
          rw [hbfp]
          exact beq_eq_false_iff_ne.mpr (fun hh => hfpf hh.symm)
        rw [this]
        simp
      rw [if_neg (by rw [hcond]; exact Bool.false_ne_true)]
  · have hany : (reconcileSpec m).any (fun g => g.fingerprint == f.fingerprint) = false := by
      rw [List.any_eq_false]
      intro x hx heq
      have hkey := (reconcile_key_mem hx).1
      have : x.fingerprint = f.fingerprint := by simpa using heq
      rw [this] at hkey
      exact h hkey
    unfold dedupStep
    rw [if_neg (by rw [hany]; exact Bool.false_ne_true)]
    unfold reconcileSpec
    rw [keys_append_single, if_neg h, List.filterMap_append]
    have hmf : m.filter (fun g => g.fingerprint == f.fingerprint) = [] := by
      rw [List.filter_eq_nil_iff]
      intro a ha hpa
      have : a.fingerprint = f.fingerprint := by simpa using hpa
      exact h (this ▸ keys_sound ha)
    congr 1
    · apply List.filterMap_congr
      intro fp hfp
      have hne : ¬ f.fingerprint = fp := fun hh => h (hh ▸ hfp)
      rw [List.filter_append]
      have hz : List.filter (fun g => g.fingerprint == fp) [f] = [] := by
        simp [hne]
      rw [hz, List.append_nil]
    · have hone : firstMaxBySeverity
          ((m ++ [f]).filter (fun g => g.fingerprint == f.fingerprint)) = some f := by
        rw [List.filter_append, hmf, List.nil_append]
        have : List.filter (fun g => g.fingerprint == f.fingerprint) [f] = [f] := by simp
        rw [this]
        rfl
      simp only [List.filterMap_cons, List.filterMap_nil, hone]

theorem foldl_dedupStep (l : List Finding) :
    ∀ m : List Finding, List.foldl dedupStep (reconcileSpec m) l = reconcileSpec (m ++ l) := by
  induction l with
  | nil => intro m; simp
  | cons a l ih =>
      intro m
      rw [List.foldl_cons, ← reconcileSpec_append_single, ih (m ++ [a])]
      have : m ++ [a] ++ l = m ++ a :: l := by simp
      rw [this]

theorem dedupV2_eq_reconcileSpec (l : List Finding) : dedupV2 l = reconcileSpec l := by
  have h0 : reconcileSpec [] = [] := rfl
  have h := foldl_dedupStep l []
  rw [h0, List.nil_append] at h
  exact h

theorem reconcileSpec_map_fingerprint (l : List Finding) :
    (reconcileSpec l).map (fun x => x.fingerprint) = fingerprintKeys l := by
  unfold reconcileSpec
  rw [List.map_filterMap]
  have hcongr : ∀ fp ∈ fingerprintKeys l,
      (firstMaxBySeverity (l.filter (fun g => g.fingerprint == fp))).map
        (fun x => x.fingerprint) = some fp := by
    intro fp hfp
    obtain ⟨g, hg, hgfp⟩ := keys_complete hfp
    have hmemf : g ∈ l.filter (fun y => y.fingerprint == fp) :=
      List.mem_filter.mpr ⟨hg, by simp [hgfp]⟩
    obtain ⟨b, hb⟩ := firstMax_isSome (List.ne_nil_of_mem hmemf)
    rw [hb]
    have := (List.mem_filter.mp (firstMax_mem hb)).2
    simpa using this
  rw [List.filterMap_congr hcongr]
  exact List.filterMap_some _

theorem dedupV2_subset {l : List Finding} {x : Finding} (h : x ∈ dedupV2 l) : x ∈ l := by
  rw [dedupV2_eq_reconcileSpec] at h
  exact (reconcile_key_mem h).2

/-- The gate keeps a candidate unchanged when it keeps anything. -/
theorem scanGate_eq_some {ag : Finding → Bool} {ho : Bool} {fd f : Finding}
    (h : scanGate ag ho fd = some f) : f = fd := by
  unfold scanGate at h
  split at h
  · exact absurd h (by simp)
  · split at h
    · exact absurd h (by simp)
    · exact (Option.some_inj.mp h).symm

/-- A member of a gated filterMap over matchers comes unchanged from a
matcher that fired. -/
theorem gate_filterMap_mem {α : Type} {ag : Finding → Bool} {ho : Bool}
    {ms : List α} {g : α → Bool} {B : α → Finding} {x : Finding}
    (h : x ∈ ms.filterMap (fun m => if g m then scanGate ag ho (B m) else none)) :
    ∃ m ∈ ms, g m = true ∧ x = B m := by
  obtain ⟨m, hm, hF⟩ := List.mem_filterMap.mp h
  by_cases hg : g m
  · rw [if_pos hg] at hF
    exact ⟨m, hm, hg, scanGate_eq_some hF⟩
  · rw [if_neg hg] at hF
    exact absurd hF (by simp)

/-- On a non-config file, every finding of one scanned line carries the
raw pattern string of an override or primary matcher. -/
theorem scanFileLineV2_pattern {ctx : ScanCtxV2} {path : String} {i : Nat}
    {line : String} {x : Finding}
    (hcfg : isConfigFilePM ctx.configFiles path = false)
    (h : x ∈ scanFileLineV2 ctx path i line) :
    x.pattern ∈ (ctx.compiledOverrides ++ ctx.compiledPatterns).map (fun m => m.2) := by
  unfold scanFileLineV2 at h
  by_cases hex : shouldExcludeLineV2 ctx line
  · rw [if_pos hex] at h
    exact absurd h (by simp)
  · rw [if_neg hex, hcfg] at h
    simp only [Bool.false_eq_true, if_false, List.append_nil] at h
    rcases List.mem_append.mp h with h1 | h1
    · obtain ⟨m, hm, hg, hx⟩ := gate_filterMap_mem h1
      exact List.mem_map.mpr ⟨m, List.mem_append_left _ hm, by rw [hx]; rfl⟩
    · obtain ⟨m, hm, hg, hx⟩ := gate_filterMap_mem h1
      exact List.mem_map.mpr ⟨m, List.mem_append_right _ hm, by rw [hx]; rfl⟩

/-- `scanFileLineV2_pattern` lifted over the line loop. -/
theorem scanLinesV2_pattern {ctx : ScanCtxV2} {path : String} {x : Finding}
    (hcfg : isConfigFilePM ctx.configFiles path = false) :
    ∀ (i : Nat) (lines : List String), x ∈ scanLinesV2 ctx path i lines →
      x.pattern ∈ (ctx.compiledOverrides ++ ctx.compiledPatterns).map (fun m => m.2) := by
  intro i lines
  induction lines generalizing i with
  | nil => intro h; exact absurd h (by simp [scanLinesV2])
  | cons l ls ih =>
      intro h
      simp only [scanLinesV2] at h
      rcases List.mem_append.mp h with h1 | h1
      · exact scanFileLineV2_pattern hcfg h1
      · exact ih (i + 1) h1

/-- Tagging and escalation always record the still-tracked flag. -/
theorem escalateFinding_isStillTracked (t : Bool) (f : Finding) :
    (escalateFinding t f).isStillTracked = t := by
  simp only [escalateFinding]
  split <;> rfl

/-- Tagging and escalation always set the history flag. -/
theorem escalateFinding_inGitHistory (t : Bool) (f : Finding) :
    (escalateFinding t f).inGitHistory = true := by
  simp only [escalateFinding]
  split <;> rfl

/-- A still-tracked historical finding leaves the escalation HIGH. -/
theorem escalateFinding_high (f : Finding) :
    (escalateFinding true f).severity = Severity.HIGH := by
  by_cases h : f.severity = Severity.HIGH <;>
    simp [escalateFinding, h]

/-- Every severity ranks at or below HIGH. -/
theorem rank_le_high (s : Severity) : Severity.rank s ≤ Severity.rank Severity.HIGH := by
  cases s <;> decide

/-- The escalation never lowers the severity rank. -/
theorem escalateFinding_rank (t : Bool) (f : Finding) :
    Severity.rank f.severity ≤ Severity.rank (escalateFinding t f).severity := by
  simp only [escalateFinding]
  split
  · exact rank_le_high f.severity
  · exact Nat.le_refl _

/-- A HIGH finding stays HIGH through the escalation. -/
theorem escalateFinding_keeps_high (t : Bool) (f : Finding)
    (h : f.severity = Severity.HIGH) :
    (escalateFinding t f).severity = Severity.HIGH := by
  cases t
  · simpa [escalateFinding] using h
  · exact escalateFinding_high f

/-- Every finding of the git-history stream is the tagged form of a
finding of one of the groups. -/
theorem scanHistoricalFiles_mem {hg : List (List Finding × Bool)} {x : Finding}
    (h : x ∈ scanHistoricalFiles hg) :
    ∃ g ∈ hg, ∃ y ∈ g.1, x = escalateFinding g.2 y := by
  unfold scanHistoricalFiles at h
  obtain ⟨l, hl, hx⟩ := List.mem_flatten.mp h
  obtain ⟨g, hgmem, hgl⟩ := List.mem_map.mp hl
  subst hgl
  obtain ⟨y, hy, hxy⟩ := List.mem_map.mp hx
  exact ⟨g, hgmem, y, hy, hxy.symm⟩

/-- The variant 2 allowlist matcher reads nothing of a finding but its two
fingerprint forms (loop part). -/
theorem isAllowlistedGo_congr {f g : Finding} (h1 : f.fingerprint = g.fingerprint)
    (h2 : f.fullFingerprint = g.fullFingerprint) :
    ∀ l, isAllowlistedGo f l = isAllowlistedGo g l := by
  intro l
  induction l with
  | nil => rfl
  | cons e es ih => simp only [isAllowlistedGo, h1, h2, ih]

/-- The variant 2 allowlist matcher reads nothing of a finding but its two
fingerprint forms. -/
theorem isAllowlisted_congr (a : List String) {f g : Finding}
    (h1 : f.fingerprint = g.fingerprint) (h2 : f.fullFingerprint = g.fullFingerprint) :
    isAllowlisted a f = isAllowlisted a g := by
  unfold isAllowlisted
  rw [h1, h2, isAllowlistedGo_congr h1 h2]

/-- The variant 1 acceptability matcher reads nothing of a finding but its
full fingerprint. -/
theorem isAcceptableGo_congr {f g : Finding}
    (h2 : f.fullFingerprint = g.fullFingerprint) :
    ∀ l, isAcceptableGo f l = isAcceptableGo g l := by
  intro l
  induction l with
  | nil => rfl
  | cons e es ih => simp only [isAcceptableGo, h2, ih]

/-- A pattern that compiles directly is kept, paired with its raw text. -/
theorem compileWithRetry_keeps {M : Type} {c : String → Option M} {pats : List String}
    {p : String} (hp : p ∈ pats) {m : M} (h : c p = some m) :
    (m, p) ∈ compileWithRetry c pats := by
  refine List.mem_filterMap.mpr ⟨p, hp, ?_⟩
  rw [h]

/-- A pattern that compiles only after the relaxed simplification is still
kept, paired with its original raw text. -/
theorem compileWithRetry_retry {M : Type} {c : String → Option M} {pats : List String}
    {p : String} (hp : p ∈ pats) {m : M} (h1 : c p = none)
    (h2 : c (simplifyPattern p) = some m) :
    (m, p) ∈ compileWithRetry c pats := by
  refine List.mem_filterMap.mpr ⟨p, hp, ?_⟩
  rw [h1, h2]

/-- A pattern failing both as written and simplified is dropped. -/
theorem compileWithRetry_drops {M : Type} {c : String → Option M} {pats : List String}
    {p : String} (h1 : c p = none) (h2 : c (simplifyPattern p) = none) (m : M) :
    (m, p) ∉ compileWithRetry c pats := by
  intro hmem
  obtain ⟨q, hq, hF⟩ := List.mem_filterMap.mp hmem
  cases hcq : c q with
  | some m1 =>
      rw [hcq] at hF
      obtain ⟨hm, hqp⟩ := Prod.mk.injEq .. ▸ Option.some_inj.mp hF
      rw [hqp] at hcq
      exact absurd hcq (by rw [h1]; exact Option.noConfusion)
  | none =>
      rw [hcq] at hF
      cases hcq2 : c (simplifyPattern q) with
      | some m1 =>
          rw [hcq2] at hF
          obtain ⟨hm, hqp⟩ := Prod.mk.injEq .. ▸ Option.some_inj.mp hF
          rw [hqp] at hcq2
          exact absurd hcq2 (by rw [h2]; exact Option.noConfusion)
      | none =>
          rw [hcq2] at hF
          exact Option.noConfusion hF

/-- Everything the retrying compiler produces is one of the raw patterns. -/
theorem compileWithRetry_sound {M : Type} {c : String → Option M} {pats : List String}
    {mp : M × String} (h : mp ∈ compileWithRetry c pats) : mp.2 ∈ pats := by
  obtain ⟨q, hq, hF⟩ := List.mem_filterMap.mp h
  cases hcq : c q with
  | some m1 =>
      rw [hcq] at hF
      rw [← Option.some_inj.mp hF]
      exact hq
  | none =>
      rw [hcq] at hF
      cases hcq2 : c (simplifyPattern q) with
      | some m1 =>
          rw [hcq2] at hF
          rw [← Option.some_inj.mp hF]
          exact hq
      | none =>
          rw [hcq2] at hF
          exact Option.noConfusion hF

/-- A pattern that compiles is kept by the no-retry compiler. -/
theorem compileNoRetry_keeps {M : Type} {c : String → Option M} {pats : List String}
    {p : String} (hp : p ∈ pats) {m : M} (h : c p = some m) :
    (m, p) ∈ compileNoRetry c pats := by
  refine List.mem_filterMap.mpr ⟨p, hp, ?_⟩
  rw [h]
  rfl

/-- A pattern that fails to compile is dropped by the no-retry compiler. -/
theorem compileNoRetry_drops {M : Type} {c : String → Option M} {pats : List String}
    {p : String} (h1 : c p = none) (m : M) :
    (m, p) ∉ compileNoRetry c pats := by
  intro hmem
  obtain ⟨q, hq, hF⟩ := List.mem_filterMap.mp hmem
  cases hcq : c q with
  | some m1 =>
      rw [hcq] at hF
      obtain ⟨hm, hqp⟩ := Prod.mk.injEq .. ▸ Option.some_inj.mp hF
      rw [hqp] at hcq
      exact absurd hcq (by rw [h1]; exact Option.noConfusion)
  | none =>
      rw [hcq] at hF
      exact Option.noConfusion hF

/-- Everything the no-retry compiler produces is one of the raw patterns. -/
theorem compileNoRetry_sound {M : Type} {c : String → Option M} {pats : List String}
    {mp : M × String} (h : mp ∈ compileNoRetry c pats) : mp.2 ∈ pats := by
  obtain ⟨q, hq, hF⟩ := List.mem_filterMap.mp h
  cases hcq : c q with
  | some m1 =>
      rw [hcq] at hF
      rw [← Option.some_inj.mp hF]
      exact hq
  | none =>
      rw [hcq] at hF
      exact Option.noConfusion hF

/-!
The claims.
-/

/-- C1: the severity-preferring deduplication of variant 2 keeps, per
fingerprint, the first finding of maximal severity in stream order (it
equals the reconciler written from the specification), and in Scenario D a
LOW and a HIGH finding sharing a fingerprint leave exactly the HIGH one.
Variant 1 instead keeps the first finding seen (see the counterexample). -/
theorem C1_dedup_keeps_highest_severity :
    (∀ l : List Finding, dedupV2 l = reconcileSpec l) ∧
    (∀ f g : Finding, f.fingerprint = g.fingerprint → f.severity = Severity.LOW →
      g.severity = Severity.HIGH → dedupV2 [f, g] = [g]) := by
  refine ⟨dedupV2_eq_reconcileSpec, ?_⟩
  intro f g hfp hf hg
  simp [dedupV2, dedupStep, betterSeverity, List.foldl, hfp, hf, hg]

/-- Scenario D on concrete findings through the variant 2 dedup. -/
theorem C1_dedup_witness : dedupV2 [fLowC1, fHighC1] = [fHighC1] :=
  C1_dedup_keeps_highest_severity.2 fLowC1 fHighC1 (by decide) (by decide) (by decide)

/-- Variant 1 keeps the first finding per fingerprint, so in Scenario D
the LOW finding survives and the HIGH one is dropped. -/
theorem C1_counterexample_first_wins :
    fLowC1.fingerprint = fHighC1.fingerprint ∧ fLowC1.severity = Severity.LOW ∧
    fHighC1.severity = Severity.HIGH ∧ dedupV1 [fLowC1, fHighC1] = [fLowC1] := by decide

/-- C2: with the single allowlist entry `src/config.py:42:*`, every
finding in `src/config.py` at line 42 is suppressed by both variants
whatever its matched pattern, and every finding of that file at any other
line is kept by both. -/
theorem C2_allowlist_glob_line42 (f : Finding) (hpath : f.filePath = "src/config.py") :
    (f.lineNumber = 42 →
      isAllowlisted allowEntry42 f = .ok true ∧
      isAcceptableFinding allowEntry42 f = .ok true) ∧
    (f.lineNumber ≠ 42 →
      isAllowlisted allowEntry42 f = .ok false ∧
      isAcceptableFinding allowEntry42 f = .ok false) := by
  have h1 : f.fingerprint = (cfgFinding f.lineNumber f.pattern).fingerprint := by
    simp [Finding.fingerprint, cfgFinding, hpath]
  have h2 : f.fullFingerprint = (cfgFinding f.lineNumber f.pattern).fullFingerprint := by
    simp [Finding.fullFingerprint, cfgFinding, hpath]
  have hA := isAllowlisted_congr allowEntry42 h1 h2
  have hB : isAcceptableFinding allowEntry42 f =
      isAcceptableFinding allowEntry42 (cfgFinding f.lineNumber f.pattern) :=
    isAcceptableGo_congr h2 allowEntry42
  constructor
  · intro h42
    rw [hA, hB, h42]
    exact ⟨isAllowlisted_line42 f.pattern, isAcceptable_line42 f.pattern⟩
  · intro h42
    rw [hA, hB]
    exact ⟨isAllowlisted_other_line _ _ h42, isAcceptable_other_line _ _ h42⟩

/-- Scenario F at the concrete lines 42 and 7. -/
theorem C2_allowlist_glob_witness :
    (cfgFinding 42 "tok").filePath = "src/config.py" ∧
    isAllowlisted allowEntry42 (cfgFinding 42 "tok") = .ok true ∧
    isAcceptableFinding allowEntry42 (cfgFinding 42 "tok") = .ok true ∧
    isAllowlisted allowEntry42 (cfgFinding 7 "tok") = .ok false ∧
    isAcceptableFinding allowEntry42 (cfgFinding 7 "tok") = .ok false :=
  ⟨rfl,
   ((C2_allowlist_glob_line42 (cfgFinding 42 "tok") rfl).1 rfl).1,
   ((C2_allowlist_glob_line42 (cfgFinding 42 "tok") rfl).1 rfl).2,
   ((C2_allowlist_glob_line42 (cfgFinding 7 "tok") rfl).2 (by decide)).1,
   ((C2_allowlist_glob_line42 (cfgFinding 7 "tok") rfl).2 (by decide)).2⟩

/-- C3: in variant 2, a file that is not a config file never yields a
finding whose matched pattern is anything but an override or primary
pattern — config-specific patterns fire only on config files.  Variant 1
applies its config-specific patterns to every file (see the
counterexample). -/
theorem C3_config_patterns_only_on_config_files (ctx : ScanCtxV2) (path : String)
    (lines : List String) (x : Finding)
    (hcfg : isConfigFilePM ctx.configFiles path = false)
    (h : x ∈ scanFileV2 ctx path lines) :
    x.pattern ∈ (ctx.compiledOverrides ++ ctx.compiledPatterns).map (fun m => m.2) :=
  scanLinesV2_pattern hcfg 1 lines h

/-- A concrete non-config scan whose one finding carries a primary
pattern. -/
theorem C3_config_patterns_witness :
    isConfigFilePM w7ctx.configFiles "p" = false ∧
    w3f ∈ scanFileV2 w7ctx "p" ["ok"] ∧
    w3f.pattern ∈ (w7ctx.compiledOverrides ++ w7ctx.compiledPatterns).map (fun m => m.2) :=
  ⟨by decide, by decide,
   C3_config_patterns_only_on_config_files w7ctx "p" ["ok"] w3f (by decide) (by decide)⟩

/-- Variant 1 scanning the non-config file `app.py` produces a finding
whose matched pattern is a config-specific pattern and no other group's. -/
theorem C3_counterexample_config_pattern_on_source_file :
    isConfigFileV1 "app.py" = false ∧
    scanV1 v1StrictCtx "app.py" false false false ["user = x"] = [c3found] ∧
    c3found.pattern ∈ v1StrictCtx.compiledConfigPatterns.map (fun m => m.2) ∧
    c3found.pattern ∉
      (v1StrictCtx.compiledPatterns ++ v1StrictCtx.compiledOverrides).map (fun m => m.2) :=
  ⟨by decide, by decide, by decide, by decide⟩

/-- C4: the variant 2 risk-type pre-pass implements exactly the
specification's lexicon order (logging tokens `console.`, `print`, `echo`,
`log.`; then response tokens; then a bracketed header; else
`HARDCODED_SECRET`), and in particular a line containing `log.` is
classified `DATA_EXPOSURE_LOGS`.  Variant 1 omits `log.` from its logging
lexicon (see the counterexample). -/
theorem C4_risk_type_prepass (line : String) :
    riskTypeV2 line = riskTypeSpec line ∧
    (containsSub "log." (pyLower line) = true →
      riskTypeV2 line = RiskType.DATA_EXPOSURE_LOGS) := by
  constructor
  · simp only [riskTypeV2, riskTypeSpec, List.any_cons, List.any_nil,
      Bool.or_false, Bool.or_assoc]
  · intro h
    simp [riskTypeV2, h]

/-- The risk pre-pass on the line `log.debug(user)`. -/
theorem C4_risk_type_witness :
    riskTypeV2 "log.debug(user)" = riskTypeSpec "log.debug(user)" ∧
    riskTypeV2 "log.debug(user)" = RiskType.DATA_EXPOSURE_LOGS :=
  ⟨(C4_risk_type_prepass "log.debug(user)").1,
   (C4_risk_type_prepass "log.debug(user)").2 (by decide)⟩

/-- Variant 1 classifies a pure `log.` line as `HARDCODED_SECRET` where
the specification and variant 2 say `DATA_EXPOSURE_LOGS`. -/
theorem C4_counterexample_log_token :
    containsSub "log." (pyLower "log.debug(user)") = true ∧
    riskTypeV1 "log.debug(user)" = RiskType.HARDCODED_SECRET ∧
    riskTypeV2 "log.debug(user)" = RiskType.DATA_EXPOSURE_LOGS ∧
    riskTypeSpec "log.debug(user)" = RiskType.DATA_EXPOSURE_LOGS := by decide

/-- C5: in variant 2, a finding whose bare fingerprint equals a stored
entry is allowlisted whatever its matched pattern (the bare check runs
before any glob entry is compiled).  Variant 1 never consults the bare
fingerprint (see the counterexample). -/
theorem C5_bare_fingerprint_suppresses (allowlist : List String) (f : Finding)
    (h : f.fingerprint ∈ allowlist) :
    isAllowlisted allowlist f = .ok true := by
  unfold isAllowlisted
  rw [if_pos h]

/-- The bare entry `a.py:1` suppresses a finding at that line in
variant 2. -/
theorem C5_bare_fingerprint_witness :
    f5finding.fingerprint ∈ allow5 ∧ isAllowlisted allow5 f5finding = .ok true :=
  ⟨by decide, C5_bare_fingerprint_suppresses allow5 f5finding (by decide)⟩

/-- Variant 1 does not suppress a finding whose bare fingerprint equals
the stored entry. -/
theorem C5_counterexample_v1_ignores_bare :
    f5finding.fingerprint ∈ allow5 ∧
    isAcceptableFinding allow5 f5finding = Except.ok false ∧
    isAllowlisted allow5 f5finding = Except.ok true := by decide

/-- C6: in the reconciled variant 2 output, every finding flagged as
historical and still tracked is HIGH (provided the current-scan streams
carry no history flag, as the scanner constructs them); the escalation
never lowers a severity rank and keeps HIGH findings HIGH, in both
variants; and the variant 1 escalation of a historical still-tracked
finding always yields HIGH. -/
theorem C6_history_escalation :
    (∀ (pf df : List Finding) (hgs : List (List Finding × Bool)) (x : Finding),
        (∀ y ∈ pf ++ df, y.inGitHistory = false) →
        x ∈ scanAllV2 pf df hgs →
        x.inGitHistory = true → x.isStillTracked = true →
        x.severity = Severity.HIGH) ∧
    (∀ (t : Bool) (f : Finding),
        Severity.rank f.severity ≤ Severity.rank (escalateFinding t f).severity) ∧
    (∀ (t : Bool) (f : Finding), f.severity = Severity.HIGH →
        (escalateFinding t f).severity = Severity.HIGH) ∧
    (∀ (isHistorical isStillTracked : Bool) (s : Severity),
        Severity.rank s ≤ Severity.rank (escalateSeverityV1 isHistorical isStillTracked s)) ∧
    (∀ s : Severity, escalateSeverityV1 true true s = Severity.HIGH) := by
  refine ⟨?_, escalateFinding_rank, escalateFinding_keeps_high, ?_, ?_⟩
  · intro pf df hgs x hcur hx hgit htr
    have hx2 : x ∈ pf ++ df ++ scanHistoricalFiles hgs := dedupV2_subset hx
    rcases List.mem_append.mp hx2 with h1 | h1
    · exact absurd hgit (by rw [hcur x h1]; exact Bool.false_ne_true)
    · obtain ⟨g, hg, y, hy, hxy⟩ := scanHistoricalFiles_mem h1
      subst hxy
      rw [escalateFinding_isStillTracked] at htr
      rw [htr]
      exact escalateFinding_high y
  · intro ih ist s
    unfold escalateSeverityV1
    split
    · exact rank_le_high s
    · exact Nat.le_refl _
  · intro s
    by_cases h : s = Severity.HIGH <;> simp [escalateSeverityV1, h]

/-- A LOW finding from a still-tracked historical file surfaces HIGH in
the reconciled output. -/
theorem C6_history_escalation_witness :
    w6f ∈ scanAllV2 [] [] [([f6base], true)] ∧
    w6f.inGitHistory = true ∧ w6f.isStillTracked = true ∧
    w6f.severity = Severity.HIGH :=
  ⟨by decide, by decide, by decide,
   C6_history_escalation.1 [] [] [([f6base], true)] w6f (by simp) (by decide)
     (by decide) (by decide)⟩

/-- C7: a line on which an exclusion matcher fires contributes no finding
at all, in either variant, whatever the primary, override and
config-specific matchers would say. -/
theorem C7_excluded_line_yields_nothing :
    (∀ (ctx : ScanCtxV2) (path : String) (i : Nat) (line : String),
        shouldExcludeLineV2 ctx line = true →
        scanFileLineV2 ctx path i line = []) ∧
    (∀ (ctx : ScanCtxV1) (path : String)
        (isHistorical isStillTracked gitignoredExt : Bool) (i : Nat) (line : String),
        shouldExcludeV1 ctx line = true →
        scanFileLineV1 ctx path isHistorical isStillTracked gitignoredExt i line = []) := by
  constructor
  · intro ctx path i line h
    unfold scanFileLineV2
    rw [if_pos h]
  · intro ctx path ih ist gi i line h
    unfold scanFileLineV1
    rw [if_pos h]

/-- The vetoed line `BAD` yields nothing in either variant even though a
matcher fires on other lines of the same contexts. -/
theorem C7_excluded_line_witness :
    shouldExcludeLineV2 w7ctx "BAD" = true ∧
    scanFileLineV2 w7ctx "p" 1 "BAD" = [] ∧
    shouldExcludeV1 w7ctxV1 "BAD" = true ∧
    scanFileLineV1 w7ctxV1 "p" false false false 1 "BAD" = [] :=
  ⟨by decide, C7_excluded_line_yields_nothing.1 w7ctx "p" 1 "BAD" (by decide),
   by decide, C7_excluded_line_yields_nothing.2 w7ctxV1 "p" false false false 1 "BAD"
     (by decide)⟩

/-- C8: a stored glob entry whose non-wildcard remainder contains an
unescaped `[` makes both variants' matchers raise (Python `re.error`
escapes the matcher), contradicting the specification's requirement that
malformed glob entries never crash the matcher. -/
theorem C8_malformed_glob_entry_errors :
    isAllowlisted badEntry f8finding = Except.error () ∧
    isAcceptableFinding badEntry f8finding = Except.error () := by decide

/-- C9: pattern compilation is total and per-pattern: a pattern that
compiles (directly, or — for the main list — after the relaxed
simplification) is kept paired with its original text, a pattern that does
not is dropped, and everything produced stems from the input list; no
compilation failure escapes. -/
theorem C9_compile_drops_bad_patterns {M : Type} (c : String → Option M)
    (pats : List String) (p : String) (hp : p ∈ pats) :
    (∀ m, c p = some m → (m, p) ∈ compileWithRetry c pats) ∧
    (∀ m, c p = none → c (simplifyPattern p) = some m →
      (m, p) ∈ compileWithRetry c pats) ∧
    (c p = none → c (simplifyPattern p) = none →
      ∀ m, (m, p) ∉ compileWithRetry c pats) ∧
    (∀ mp ∈ compileWithRetry c pats, mp.2 ∈ pats) ∧
    (∀ m, c p = some m → (m, p) ∈ compileNoRetry c pats) ∧
    (c p = none → ∀ m, (m, p) ∉ compileNoRetry c pats) ∧
    (∀ mp ∈ compileNoRetry c pats, mp.2 ∈ pats) :=
  ⟨fun _ h => compileWithRetry_keeps hp h,
   fun _ h1 h2 => compileWithRetry_retry hp h1 h2,
   fun h1 h2 m => compileWithRetry_drops h1 h2 m,
   fun _ h => compileWithRetry_sound h,
   fun _ h => compileNoRetry_keeps hp h,
   fun h1 m => compileNoRetry_drops h1 m,
   fun _ h => compileNoRetry_sound h⟩

/-- The compile oracle `w9c` on the three-element pattern list: a direct
success is kept, a retry success is kept under its original text, a double
failure is dropped, and the no-retry compiler keeps only the direct
success. -/
theorem C9_compile_witness :
    "b\\s+" ∈ w9pats ∧
    ((), "alpha") ∈ compileWithRetry w9c w9pats ∧
    ((), "b\\s+") ∈ compileWithRetry w9c w9pats ∧
    (((), "bad[") ∉ compileWithRetry w9c w9pats) ∧
    ((), "alpha") ∈ compileNoRetry w9c w9pats ∧
    (((), "b\\s+") ∉ compileNoRetry w9c w9pats) :=
  ⟨by decide,
   (C9_compile_drops_bad_patterns w9c w9pats "alpha" (by decide)).1 () (by decide),
   (C9_compile_drops_bad_patterns w9c w9pats "b\\s+" (by decide)).2.1 ()
     (by decide) (by decide),
   (C9_compile_drops_bad_patterns w9c w9pats "bad[" (by decide)).2.2.1
     (by decide) (by decide) (),
   (C9_compile_drops_bad_patterns w9c w9pats "alpha" (by decide)).2.2.2.2.1 ()
     (by decide),
   (C9_compile_drops_bad_patterns w9c w9pats "b\\s+" (by decide)).2.2.2.2.2.1
     (by decide) ()⟩

/-- C10: both variants' classifiers ignore their matched-pattern argument:
any two pattern strings give the same severity and risk type for the same
path and line. -/
theorem C10_classifier_ignores_matched_pattern (ov : List Matcher) (cf : List String)
    (path line p1 p2 : String) :
    determineSeverityAndRiskV1 ov path line p1 =
      determineSeverityAndRiskV1 ov path line p2 ∧
    determineSeverityAndRiskV2 ov cf path line p1 =
      determineSeverityAndRiskV2 ov cf path line p2 :=
  ⟨rfl, rfl⟩

end Scanner
